import Mathlib

/-!
Shallow embedding of the `trello-music-manager` repository
(`trello_music_manager/manager.py`, `subcommand.py`, `__main__.py`,
`utils.py`) and proofs about it.

Modelling conventions:
* Remote entities (cards, checklists, checkitems, lists) are plain
  structures over `String` fields, exactly the fields the source reads.
* A single remote round-trip is modelled by its decoded response: the
  response status code (`Nat`) and the decoded body.  Gateway-level
  functions (`create_card`, `get_card`, ...) take the response as an
  argument and return `Option` of the decoded entity, mirroring the
  Python `if response.status_code == 200: return json.loads(...)` shape
  (falling off the function returns `None`); they never throw.
* Command-level functions (`create_album_card`, `complete_tasks`,
  `reset_tasks`, `create_linked_album_cards`) are parameterised by a
  success oracle `ok : Nat → Bool` giving the outcome of the n-th
  mutating request the command issues, thread the relevant board state
  explicitly, and also return the trace of mutating requests issued, so
  that theorems can speak both about final state and about which
  requests were sent.
* Python dictionaries keyed by strings are modelled as association
  lists with Python's insertion-order update semantics (`dictSet`).
-/

namespace Trello

/-- A Trello list as fetched from the board (`id`, `name` are the
fields the source reads). -/
structure TrelloList where
  id : String
  name : String
deriving DecidableEq, Repr

/-- A Trello card; the source reads `id`, `name`, `shortUrl`. -/
structure TCard where
  id : String
  name : String
  shortUrl : String
deriving DecidableEq, Repr

/-- A checkitem of a checklist: `id`, `name`, binary `state`
(`"complete"` / `"incomplete"`). -/
structure Checkitem where
  id : String
  name : String
  state : String
deriving DecidableEq, Repr

/-- A checklist as fetched from a card (`id`, `name`). -/
structure NamedChecklist where
  id : String
  name : String
deriving DecidableEq, Repr

/-- The four fixed task names.  This is the literal list `tasks` inside
`MusicBoardManager.create_album_card` (manager.py); it is also the value
of the `album_tasks` manager attribute consumed by `subcommand.py` and
`__main__.py`, whose definition is not part of the sources under
verification. -/
def album_tasks : List String :=
  ["Download", "Add metadata", "Transfer to phone", "Listen"]

/-- Python dict assignment `d[k] = v` on a string-keyed dict modelled as
an association list: overwrite in place if the key exists, else append
(Python 3.7+ insertion-order semantics). -/
def dictSet {α : Type} (d : List (String × α)) (k : String) (v : α) :
    List (String × α) :=
  if d.any (fun p => p.1 = k) then
    d.map (fun p => if p.1 = k then (k, v) else p)
  else d ++ [(k, v)]

/-- Python truthiness of an optional string argument (`if not name`):
`None` and `""` are falsy. -/
def truthy : Option String → Bool
  | none => false
  | some s => !(s == "")

/-- Python `s.startswith(pre)`. -/
def pyStartsWith (s pre : String) : Bool :=
  List.isPrefixOf pre.data s.data

/-- A mutating request issued by the gateway, as recorded in traces. -/
inductive GReq where
  | createCard (listId name : String)
  | createChecklist (cardId name : String)
  | addCheckitem (checklistId name : String)
  | addAttachment (cardId url : String)
  | deleteCard (cardId : String)
  | putCheckitem (cardId checkitemId : String) (name state : Option String)
deriving DecidableEq, Repr

/-! ## Remote Entity Gateway (manager.py, response-level operations)

Each operation is a function of the decoded remote response; `status`
is the HTTP status code of that response and `body` its decoded JSON
payload.  A non-200 status yields `none` (the Python functions fall off
the end and return `None`); no operation raises. -/

/-- `MusicBoardManager.create_card`. -/
def create_card (status : Nat) (body : TCard) (listId name : String) :
    Option TCard :=
  if status = 200 then some body else none

/-- `MusicBoardManager.get_card`. -/
def get_card_op (status : Nat) (body : TCard) : Option TCard :=
  if status = 200 then some body else none

/-- `MusicBoardManager.delete_card`: returns whether the status was 200. -/
def delete_card_op (status : Nat) : Bool :=
  status == 200

/-- `MusicBoardManager.create_checklist`. -/
def create_checklist (status : Nat) (body : NamedChecklist)
    (cardId name : String) : Option NamedChecklist :=
  if status = 200 then some body else none

/-- One item-add request of `MusicBoardManager.add_items_to_checklist`. -/
def add_checkitem (status : Nat) (body : Checkitem)
    (checklistId name : String) : Option Checkitem :=
  if status = 200 then some body else none

/-- The attachment POST issued inside `create_album_card`. -/
def add_attachment (status : Nat) (body : TCard) (cardId url : String) :
    Option TCard :=
  if status = 200 then some body else none

/-- `MusicBoardManager.add_items_to_checklist`: one request per item, in
order; items whose request fails are skipped, successes are collected in
order.  `statuses i` / `bodies i` are the response to the request for
item index `i`. -/
def add_items_to_checklist (statuses : Nat → Nat) (bodies : Nat → Checkitem)
    (items : List String) : List Checkitem :=
  (List.range items.length).filterMap
    (fun i => if statuses i = 200 then some (bodies i) else none)

/-- `MusicBoardManager.update_checkitem`: if neither a (truthy) name nor
a (truthy) state is supplied, return `None` immediately without issuing
any request; otherwise issue one PUT carrying exactly the truthy fields
and return the decoded body on status 200.  The second component is the
list of requests issued. -/
def update_checkitem (status : Nat) (body : Checkitem)
    (cardId checkitemId : String) (name state : Option String) :
    Option Checkitem × List GReq :=
  if !truthy name && !truthy state then (none, [])
  else
    ((if status = 200 then some body else none),
     [GReq.putCheckitem cardId checkitemId
        (if truthy name then name else none)
        (if truthy state then state else none)])

/-! ## Board Topology Resolver (`MusicBoardManager.get_board_lists`) -/

/-- The four configured list names. -/
structure ListsCfg where
  artists_list_name : String
  albums_pending_list_name : String
  albums_doing_list_name : String
  albums_done_list_name : String
deriving DecidableEq, Repr

/-- The resolved role → list binding. -/
structure ResolvedLists where
  artists : TrelloList
  albums_pending : TrelloList
  albums_doing : TrelloList
  albums_done : TrelloList
deriving DecidableEq, Repr

/-- The binding a role receives from the `for trello_list in ...` loop of
`get_board_lists`: each name match overwrites the previous binding, so
the final value is the last matching list in fetch order. -/
def resolveRole (name : String) (ls : List TrelloList) : Option TrelloList :=
  ls.foldl (fun acc l => if l.name = name then some l else acc) none

/-- `MusicBoardManager.get_board_lists`: a non-200 fetch raises
`MusicBoardManagerConfigError` (modelled as `Except.error` with the
message); otherwise bind each role to the last name-matching list, then
check the roles in dict insertion order and raise on the first role
with no binding. -/
def get_board_lists (status : Nat) (body : List TrelloList) (cfg : ListsCfg) :
    Except String ResolvedLists :=
  if status ≠ 200 then
    .error ("Request of music board's lists failed with status code "
      ++ toString status ++ ".")
  else
    match resolveRole cfg.artists_list_name body with
    | none => .error "Could not find artists board."
    | some a =>
      match resolveRole cfg.albums_pending_list_name body with
      | none => .error "Could not find albums_pending board."
      | some p =>
        match resolveRole cfg.albums_doing_list_name body with
        | none => .error "Could not find albums_doing board."
        | some d =>
          match resolveRole cfg.albums_done_list_name body with
          | none => .error "Could not find albums_done board."
          | some f => .ok ⟨a, p, d, f⟩

/-! ## Album card provisioning (`MusicBoardManager.create_album_card`)

The board is modelled as the list of cards on it; `ok n` is the success
of the n-th remote mutating call the operation issues (0 = create_card,
1 = create_checklist, 2-5 = the four checkitem adds, then the
attachment, and finally the rollback delete where applicable).
`newId` / `newShortUrl` are the identity the remote service assigns to
the created card and `newChecklistId` to the created checklist. -/
def removeCard (board : List TCard) (cardId : String) : List TCard :=
  board.filter (fun c => !(c.id == cardId))

def create_album_card (ok : Nat → Bool) (pendingListId album artistUrl : String)
    (newId newShortUrl newChecklistId : String) (board : List TCard) :
    Option TCard × List TCard × List GReq :=
  let tr0 := [GReq.createCard pendingListId album]
  if !ok 0 then (none, board, tr0)
  else
    let card : TCard := ⟨newId, album, newShortUrl⟩
    let board1 := board ++ [card]
    let tr1 := tr0 ++ [GReq.createChecklist newId "Tasks"]
    if !ok 1 then
      let tr2 := tr1 ++ [GReq.deleteCard newId]
      (none, if ok 2 then removeCard board1 newId else board1, tr2)
    else
      let addedCount := (List.range 4).countP (fun i => ok (2 + i))
      let tr2 := tr1 ++ album_tasks.map (fun t => GReq.addCheckitem newChecklistId t)
      if addedCount ≠ 4 then
        let tr3 := tr2 ++ [GReq.deleteCard newId]
        (none, if ok 6 then removeCard board1 newId else board1, tr3)
      else
        let tr3 := tr2 ++ [GReq.addAttachment newId artistUrl]
        if !ok 6 then
          let tr4 := tr3 ++ [GReq.deleteCard newId]
          (none, if ok 7 then removeCard board1 newId else board1, tr4)
        else (some card, board1, tr3)

/-! ## Linking pass (`MusicBoardManager.create_linked_album_cards`)

The creation of an album card is abstracted by `create : String →
Option TCard` (the outcome of `create_album_card` for a given album
title, modelled separately above); `ok n` is the success of the n-th
`update_checkitem` request the pass issues. -/

/-- A request recorded by the linking pass: an album-card creation
attempt, or a checkitem update PUT. -/
inductive CLReq where
  | create (album : String)
  | update (cardId checkitemId : String) (name state : Option String)
deriving DecidableEq, Repr

/-- The `for checkitem in albums_checkitems` loop of
`create_linked_album_cards`.  Returns the checklist's checkitems after
the pass (positional, in place), the list of updated checkitems the
function returns, the request trace, and the next oracle index. -/
def clacLoop (create : String → Option TCard) (ok : Nat → Bool)
    (artistCardId : String) :
    List Checkitem → Nat →
    List Checkitem × List Checkitem × List CLReq × Nat
  | [], n => ([], [], [], n)
  | ci :: rest, n =>
    if pyStartsWith ci.name "http" then
      let (bs, us, tr, n') := clacLoop create ok artistCardId rest n
      (ci :: bs, us, tr, n')
    else
      match create ci.name with
      | none =>
        let (bs, us, tr, n') := clacLoop create ok artistCardId rest n
        (ci :: bs, us, CLReq.create ci.name :: tr, n')
      | some c =>
        let r := CLReq.update artistCardId ci.id (some c.shortUrl)
          (some "incomplete")
        if ok n then
          let ci2 : Checkitem := ⟨ci.id, c.shortUrl, "incomplete"⟩
          let (bs, us, tr, n') := clacLoop create ok artistCardId rest (n + 1)
          (ci2 :: bs, ci2 :: us, CLReq.create ci.name :: r :: tr, n')
        else
          let (bs, us, tr, n') := clacLoop create ok artistCardId rest (n + 1)
          (ci :: bs, us, CLReq.create ci.name :: r :: tr, n')

/-- `create_linked_album_cards`: if the Albums checklist cannot be
resolved (`found = false`) the function returns `None` having issued
nothing; otherwise it runs the loop over the fetched checkitems. -/
def create_linked_album_cards (create : String → Option TCard)
    (ok : Nat → Bool) (found : Bool) (artistCardId : String)
    (checkitems : List Checkitem) :
    List Checkitem × Option (List Checkitem) × List CLReq :=
  if found then
    let (bs, us, tr, _) := clacLoop create ok artistCardId checkitems 0
    (bs, some us, tr)
  else (checkitems, none, [])

/-! ## Task State Machine (`subcommand.py`: `complete_tasks`,
`reset_tasks`)

The state the two commands touch is bundled in `AlbumState`: the album
card's identity and current list, its task checkitems, and the linked
checkitem on the owning artist card (the `_artist_card_id`,
`_checkitem_id`, `_checkitem_state` annotations `get_album_card`
attaches).  `get_album_card`, `get_album_card_tasks_checklist`,
`get_checkitems`, `move_card` and the `album_tasks` attribute are not
among the sources; their lookup outcomes are modelled by the `found` /
`tcFound` parameters and the effect of `move_card` from the spec
(sec. 4.1: move-card(card, target-list, position) re-homes the card). -/

/-- The three album workflow list identities of the manager. -/
structure Mgr where
  albums_pending_list_id : String
  albums_doing_list_id : String
  albums_done_list_id : String
deriving DecidableEq, Repr

/-- The album-centred board state the task commands read and write. -/
structure AlbumState where
  cardId : String
  idList : String
  taskItems : List Checkitem
  artist_card_id : String
  checkitem_id : String
  checkitem_state : String
deriving DecidableEq, Repr

/-- A mutating request issued by the task commands. -/
inductive Req where
  | updateCheckitem (cardId checkitemId : String) (name state : Option String)
  | moveCard (cardId listId : String)
deriving DecidableEq, Repr

/-- The board-state effect of a successful request: an update addressed
to the album card rewrites the matching task checkitem; an update
addressed to the linked checkitem on the artist card rewrites its
state; a move re-homes the album card. -/
def applyReq (s : AlbumState) (r : Req) : AlbumState :=
  match r with
  | .updateCheckitem cardId ciId name st =>
    if cardId = s.cardId then
      { s with taskItems := s.taskItems.map (fun ci =>
          if ci.id = ciId then
            ⟨ci.id, name.getD ci.name, st.getD ci.state⟩
          else ci) }
    else if cardId = s.artist_card_id ∧ ciId = s.checkitem_id then
      { s with checkitem_state := st.getD s.checkitem_state }
    else s
  | .moveCard cardId listId =>
    if cardId = s.cardId then { s with idList := listId } else s

/-- The update condition of the `complete_tasks` loop:
`if task in tasks and not complete`. -/
def taskCond (tasks : List String) (ci : Checkitem) : Bool :=
  tasks.contains ci.name && !(ci.state == "complete")

/-- The `for task_checkitem in tasks_checkitems` loop of
`complete_tasks`: for each requested, not-yet-complete task issue an
update marking it complete, aborting the command on the first failed
update; record the completion dict. -/
def ctLoop (ok : Nat → Bool) (cardId : String) (tasks : List String) :
    List Checkitem → List (String × Bool) → AlbumState → List Req → Nat →
    Option (List (String × Bool)) × AlbumState × List Req × Nat
  | [], acc, b, tr, n => (some acc, b, tr, n)
  | ci :: rest, acc, b, tr, n =>
    if taskCond tasks ci then
      let r := Req.updateCheckitem cardId ci.id none (some "complete")
      if ok n then
        ctLoop ok cardId tasks rest (dictSet acc ci.name true) (applyReq b r)
          (tr ++ [r]) (n + 1)
      else (none, b, tr ++ [r], n + 1)
    else
      ctLoop ok cardId tasks rest (dictSet acc ci.name (ci.state == "complete"))
        b tr n

/-- One conditional, non-fatal remote step of the aggregate phase of
`complete_tasks` (card move / artist-checkitem update whose failure is
only printed). -/
def aggStep (ok : Nat → Bool) (c : Bool) (r : Req)
    (b : AlbumState) (tr : List Req) (n : Nat) :
    AlbumState × List Req × Nat :=
  if c then ((if ok n then applyReq b r else b), tr ++ [r], n + 1)
  else (b, tr, n)

/-- `dict.values()` aggregates of the completion dict. -/
def dictAll (d : List (String × Bool)) : Bool := d.all (fun p => p.2)

def dictAny (d : List (String × Bool)) : Bool := d.any (fun p => p.2)

/-- The aggregate phase of `complete_tasks`: if all tasks are complete,
move the card to the done list (when not already there) and force the
linked artist-card checkitem to complete; if some but not all are
complete, move to the doing list and force it to incomplete; otherwise
do nothing.  Decisions read the `album_card` snapshot `s0`; effects
apply to the current board state `b`.  Returns the report's `completed`
flag. -/
def ctAggregate (ok : Nat → Bool) (mgr : Mgr) (s0 : AlbumState)
    (tc : List (String × Bool)) (b : AlbumState) (tr : List Req) (n : Nat) :
    Bool × AlbumState × List Req :=
  if dictAll tc then
    let s1 := aggStep ok (s0.idList != mgr.albums_done_list_id)
      (Req.moveCard s0.cardId mgr.albums_done_list_id) b tr n
    let s2 := aggStep ok (s0.checkitem_state != "complete")
      (Req.updateCheckitem s0.artist_card_id s0.checkitem_id none
        (some "complete")) s1.1 s1.2.1 s1.2.2
    (true, s2.1, s2.2.1)
  else if dictAny tc then
    let s1 := aggStep ok (s0.idList != mgr.albums_doing_list_id)
      (Req.moveCard s0.cardId mgr.albums_doing_list_id) b tr n
    let s2 := aggStep ok (s0.checkitem_state != "incomplete")
      (Req.updateCheckitem s0.artist_card_id s0.checkitem_id none
        (some "incomplete")) s1.1 s1.2.1 s1.2.2
    (false, s2.1, s2.2.1)
  else (false, b, tr)

/-- The result report of `complete_tasks`. -/
structure CTReport where
  completed : Bool
  tasks : List (String × Bool)
deriving DecidableEq, Repr

/-- `complete_tasks` after the empty-request substitution: validate the
requested names, resolve the album card and its Tasks checklist, run
the completion loop, then the aggregate phase. -/
def complete_tasks_go (ok : Nat → Bool) (mgr : Mgr) (found tcFound : Bool)
    (s0 : AlbumState) (tasks : List String) :
    Option CTReport × AlbumState × List Req :=
  if tasks.any (fun t => !(album_tasks.contains t)) then (none, s0, [])
  else if !found then (none, s0, [])
  else if !tcFound then (none, s0, [])
  else if s0.taskItems.isEmpty then (none, s0, [])
  else
    match ctLoop ok s0.cardId tasks s0.taskItems
      (album_tasks.map (fun t => (t, false))) s0 [] 0 with
    | (none, b, tr, _) => (none, b, tr)
    | (some tc, b, tr, n) =>
      let (flag, b2, tr2) := ctAggregate ok mgr s0 tc b tr n
      (some ⟨flag, tc⟩, b2, tr2)

/-- `complete_tasks`: an empty requested-task list means all four fixed
tasks (the Python function re-enters itself with `manager.album_tasks`). -/
def complete_tasks (ok : Nat → Bool) (mgr : Mgr) (found tcFound : Bool)
    (s0 : AlbumState) (tasks : List String) :
    Option CTReport × AlbumState × List Req :=
  if tasks.isEmpty then complete_tasks_go ok mgr found tcFound s0 album_tasks
  else complete_tasks_go ok mgr found tcFound s0 tasks

/-- The update condition of the `reset_tasks` loop:
`if task in manager.album_tasks and complete`. -/
def resetCond (ci : Checkitem) : Bool :=
  album_tasks.contains ci.name && (ci.state == "complete")

/-- The task loop of `reset_tasks`: force every fixed-named, complete
task checkitem to incomplete; the first failed update aborts with
failure. -/
def rtLoop (ok : Nat → Bool) (cardId : String) :
    List Checkitem → AlbumState → List Req → Nat →
    Bool × AlbumState × List Req × Nat
  | [], b, tr, n => (true, b, tr, n)
  | ci :: rest, b, tr, n =>
    if resetCond ci then
      let r := Req.updateCheckitem cardId ci.id none (some "incomplete")
      if ok n then rtLoop ok cardId rest (applyReq b r) (tr ++ [r]) (n + 1)
      else (false, b, tr ++ [r], n + 1)
    else rtLoop ok cardId rest b tr n

/-- Tail of `reset_tasks` after the card move: force the linked
artist-card checkitem to incomplete (fatal on failure). -/
def rtFinish2 (ok : Nat → Bool) (s0 : AlbumState) (b : AlbumState)
    (tr : List Req) (n : Nat) : Bool × AlbumState × List Req :=
  if s0.checkitem_state != "incomplete" then
    let r := Req.updateCheckitem s0.artist_card_id s0.checkitem_id none
      (some "incomplete")
    if ok n then (true, applyReq b r, tr ++ [r])
    else (false, b, tr ++ [r])
  else (true, b, tr)

/-- Tail of `reset_tasks` after the task loop: move the card back to the
pending list when not already there (fatal on failure), then reset the
linked checkitem. -/
def rtFinish (ok : Nat → Bool) (mgr : Mgr) (s0 : AlbumState) (b : AlbumState)
    (tr : List Req) (n : Nat) : Bool × AlbumState × List Req :=
  if s0.idList != mgr.albums_pending_list_id then
    let r := Req.moveCard s0.cardId mgr.albums_pending_list_id
    if ok n then rtFinish2 ok s0 (applyReq b r) (tr ++ [r]) (n + 1)
    else (false, b, tr ++ [r])
  else rtFinish2 ok s0 b tr n

/-- `reset_tasks`. -/
def reset_tasks (ok : Nat → Bool) (mgr : Mgr) (found tcFound : Bool)
    (s0 : AlbumState) : Bool × AlbumState × List Req :=
  if !found then (false, s0, [])
  else if !tcFound then (false, s0, [])
  else if s0.taskItems.isEmpty then (false, s0, [])
  else
    match rtLoop ok s0.cardId s0.taskItems s0 [] 0 with
    | (false, b, tr, _) => (false, b, tr)
    | (true, b, tr, n) => rtFinish ok mgr s0 b tr n

/-- All four task checkitems complete. -/
def allTasksComplete (s : AlbumState) : Bool :=
  s.taskItems.all (fun ci => ci.state == "complete")

/-- Some task checkitem complete. -/
def anyTaskComplete (s : AlbumState) : Bool :=
  s.taskItems.any (fun ci => ci.state == "complete")

/-- The dual-state mapping of spec sec. 3 for an album: list membership
and the linked artist-card checkitem state against the task checkitem
states. -/
def StateTripleConsistent (mgr : Mgr) (s : AlbumState) : Prop :=
  ((s.idList = mgr.albums_done_list_id ∧ s.checkitem_state = "complete")
      ↔ allTasksComplete s = true) ∧
  ((s.idList = mgr.albums_doing_list_id ∧ s.checkitem_state = "incomplete")
      ↔ (anyTaskComplete s = true ∧ allTasksComplete s = false)) ∧
  ((s.idList = mgr.albums_pending_list_id ∧ s.checkitem_state = "incomplete")
      ↔ anyTaskComplete s = false)

/-- Well-formedness of the album state, per the data model of spec
sec. 3: the Tasks checklist holds exactly the four fixed checkitems in
order, checkitem identities are distinct, and the owning artist card is
a different card. -/
def WFAlbum (s : AlbumState) : Prop :=
  s.taskItems.map Checkitem.name = album_tasks ∧
  (s.taskItems.map Checkitem.id).Nodup ∧
  s.artist_card_id ≠ s.cardId

/-- Well-formedness of the manager topology: the three album workflow
lists are distinct. -/
def WFMgr (m : Mgr) : Prop :=
  m.albums_pending_list_id ≠ m.albums_doing_list_id ∧
  m.albums_pending_list_id ≠ m.albums_done_list_id ∧
  m.albums_doing_list_id ≠ m.albums_done_list_id

/-- The all-successes oracle: the run in which every issued remote
mutation succeeds. -/
def okTrue : Nat → Bool := fun _ => true

/-! Specification functions used to characterise the loops of the task
commands (proof infrastructure, not source translation). -/

/-- Completion dict produced by a fully successful `ctLoop` run. -/
def ctAccF (tasks : List String) (cis : List Checkitem)
    (acc : List (String × Bool)) : List (String × Bool) :=
  cis.foldl
    (fun a ci => dictSet a ci.name (ci.state == "complete" || tasks.contains ci.name))
    acc

/-- Board state produced by a run of conditional checkitem-state
updates addressed to the album card. -/
def condBoardF (cond : Checkitem → Bool) (st : String) (cardId : String)
    (cis : List Checkitem) (b : AlbumState) : AlbumState :=
  cis.foldl
    (fun bb ci =>
      if cond ci then
        applyReq bb (Req.updateCheckitem cardId ci.id none (some st))
      else bb)
    b

/-- Requests issued by a run of conditional checkitem-state updates. -/
def condReqsF (cond : Checkitem → Bool) (st : String) (cardId : String)
    (cis : List Checkitem) : List Req :=
  cis.filterMap
    (fun ci =>
      if cond ci then some (Req.updateCheckitem cardId ci.id none (some st))
      else none)

/-- Whether a request is a checkitem update addressed to the given
(album) card, i.e. a task-state update. -/
def isTaskUpdate (cardId : String) : Req → Bool
  | .updateCheckitem c _ _ _ => c == cardId
  | .moveCard _ _ => false

/-- Default checkitem used with positional `getD` lookups in
statements. -/
def defaultCheckitem : Checkitem := ⟨"", "", ""⟩

/-- The in-place rewriting a linking-pass step performs on one Albums
checkitem when every involved call succeeds: unlinked entries whose
album card gets created are renamed to the card's short URL with state
forced to incomplete; everything else stays as is. -/
def linkStep (create : String → Option TCard) (ci : Checkitem) : Checkitem :=
  if pyStartsWith ci.name "http" then ci
  else
    match create ci.name with
    | none => ci
    | some c => ⟨ci.id, c.shortUrl, "incomplete"⟩

/-! ## Status Reporter (`__main__.py`: `artist_status`, `album_status`)

Both functions only issue GET requests, so the embedding takes a
read-only snapshot of the remote data and produces no request trace:
the board is a bundle of fetch results.  A failed or empty fetch is the
empty list (`if not xs` treats both alike); `get_card` failure is
`none`.  `get_artist_card` and `get_artist_card_albums_checklist` are
the manager.py functions; `get_checkitems` and
`get_album_card_tasks_checklist` are not among the sources and are
modelled from the spec (sec. 4.1: get-checkitems-of-checklist returns
the checklist's checkitems; sec. 3: an album card owns one checklist
named "Tasks", found among the card's checklists like the "Albums" one
is). -/

/-- Read-only snapshot of the remote data the status reporter fetches. -/
structure Board where
  artistsCards : List TCard
  cardChecklists : String → List NamedChecklist
  checklistItems : String → List Checkitem
  cards : String → Option TCard

/-- `MusicBoardManager.get_artist_card`: scan all artist cards, keeping
the last one whose name equals the artist. -/
def get_artist_card (b : Board) (artist : String) : Option TCard :=
  b.artistsCards.foldl
    (fun acc c => if c.name = artist then some c else acc) none

/-- `MusicBoardManager.get_artist_card_albums_checklist`: the first
checklist of the card named "Albums". -/
def get_artist_card_albums_checklist (b : Board) (cardId : String) :
    Option NamedChecklist :=
  (b.cardChecklists cardId).find? (fun cl => cl.name = "Albums")

/-- Modelled from the spec: `MusicBoardManager.get_checkitems` is not
among the sources; spec sec. 4.1 lists get-checkitems-of-checklist
returning the checklist's checkitems (failure and the empty checklist
both surface as the falsy empty list to the callers). -/
def get_checkitems (b : Board) (checklistId : String) : List Checkitem :=
  b.checklistItems checklistId

/-- Modelled from the spec: `get_album_card_tasks_checklist` is not
among the sources; per spec sec. 3 an album card owns one checklist
named "Tasks", resolved among the card's checklists exactly as the
"Albums" checklist is on an artist card. -/
def get_album_card_tasks_checklist (b : Board) (cardId : String) :
    Option NamedChecklist :=
  (b.cardChecklists cardId).find? (fun cl => cl.name = "Tasks")

/-- Python `name.split("/")[-1]`. -/
def lastSegment (s : String) : String :=
  (s.splitOn "/").getLastD ""

/-- Per-album entry of the artist report: aggregate completion plus the
per-task status dict (`none` = unknown). -/
structure AlbumEntry where
  completed : Bool
  tasks : List (String × Option Bool)
deriving DecidableEq, Repr

/-- The report `artist_status` returns. -/
structure ArtistReport where
  artist : String
  albums : List (String × AlbumEntry)
deriving DecidableEq, Repr

/-- The body of the `for checkitem in albums_checkitems` loop of
`artist_status`: resolve the album and its per-task status, adding the
entry to the report dict; unresolvable linked entries are skipped
(`continue`). -/
def artistStatusItem (b : Board) (acc : List (String × AlbumEntry))
    (ci : Checkitem) : List (String × AlbumEntry) :=
  let complete := ci.state == "complete"
  let tasksStatus0 : List (String × Option Bool) :=
    album_tasks.map (fun t => (t, none))
  if pyStartsWith ci.name "http" then
    let cardId := lastSegment ci.name
    match b.cards cardId with
    | none => acc
    | some albumCard =>
      match get_album_card_tasks_checklist b cardId with
      | none => acc
      | some tcl =>
        let ts := (get_checkitems b tcl.id).foldl
          (fun t tci =>
            if album_tasks.contains tci.name then
              dictSet t tci.name (some (tci.state == "complete"))
            else t)
          tasksStatus0
        dictSet acc albumCard.name ⟨complete, ts⟩
  else dictSet acc ci.name ⟨complete, tasksStatus0⟩

/-- `artist_status` (`__main__.py`): resolve the artist card, its
Albums checklist and its checkitems, returning `none` (a non-zero
exit) when any of them cannot be resolved, otherwise a report built
from every checkitem. -/
def artist_status (b : Board) (artist : String) : Option ArtistReport :=
  match get_artist_card b artist with
  | none => none
  | some card =>
    match get_artist_card_albums_checklist b card.id with
    | none => none
    | some cl =>
      let cis := get_checkitems b cl.id
      if cis.isEmpty then none
      else some ⟨artist, cis.foldl (artistStatusItem b) []⟩

/-- Outcome of the album-locating loop of `album_status`. -/
inductive FindAlbum where
  | unlinkedHit
  | notFound
  | found (card : TCard) (state : String)
deriving DecidableEq, Repr

/-- The `for checkitem in albums_checkitems` loop of `album_status`:
an unlinked entry aborts immediately; a linked entry whose card cannot
be fetched is skipped; the first fetched card whose name equals the
album wins. -/
def findAlbumCard (b : Board) (album : String) :
    List Checkitem → FindAlbum
  | [] => .notFound
  | ci :: rest =>
    if !pyStartsWith ci.name "http" then .unlinkedHit
    else
      match b.cards (lastSegment ci.name) with
      | none => findAlbumCard b album rest
      | some c =>
        if c.name = album then .found c ci.state
        else findAlbumCard b album rest

/-- The report `album_status` returns. -/
structure AlbumStatusReport where
  artist : String
  album : String
  completed : Bool
  tasks : List (String × Bool)
deriving DecidableEq, Repr

/-- `album_status` (`__main__.py`): resolve the artist card, the Albums
checklist, its checkitems, the specific album's linked card, its Tasks
checklist and task checkitems; every unresolvable step returns `none`
(a non-zero exit). -/
def album_status (b : Board) (artist album : String) :
    Option AlbumStatusReport :=
  match get_artist_card b artist with
  | none => none
  | some card =>
    match get_artist_card_albums_checklist b card.id with
    | none => none
    | some cl =>
      let cis := get_checkitems b cl.id
      if cis.isEmpty then none
      else
        match findAlbumCard b album cis with
        | .unlinkedHit => none
        | .notFound => none
        | .found c st =>
          match get_album_card_tasks_checklist b c.id with
          | none => none
          | some tcl =>
            let tis := get_checkitems b tcl.id
            if tis.isEmpty then none
            else
              some ⟨artist, album, st == "complete",
                tis.foldl (fun acc ti =>
                  if album_tasks.contains ti.name then
                    dictSet acc ti.name (ti.state == "complete")
                  else acc) []⟩

/-! ## utils.py: `read_file_lines_stripped`, and the per-artist manifest
reading loop of `load_data` -/

/-- Python `str.strip()` with no argument: remove leading and trailing
whitespace characters. -/
def pyStrip (s : String) : String :=
  String.mk
    (((s.data.dropWhile Char.isWhitespace).reverse.dropWhile
        Char.isWhitespace).reverse)

/-- `read_file_lines_stripped`: a file is its list of lines; every line
is stripped (Python `line.strip()`) and appended, empty or not. -/
def read_file_lines_stripped (lines : List String) : List String :=
  lines.map (fun l => pyStrip l)

/-- The manifest-reading loop of `load_data` (`__main__.py` lines
33-37): each artist of the (already listed and sorted) directory is
mapped to the stripped lines of its manifest file. -/
def load_artists_albums (dirListing : List String)
    (manifest : String → List String) : List (String × List String) :=
  dirListing.map (fun a => (a, read_file_lines_stripped (manifest a)))

/-! # Theorems -/

/-- C10: `update_checkitem` called with neither a new name nor a new
state returns `None` immediately and issues no remote request at all. -/
theorem update_checkitem_no_fields_is_noop :
    ∀ (status : Nat) (body : Checkitem) (cardId checkitemId : String),
      update_checkitem status body cardId checkitemId none none = (none, []) := by
  intro status body cardId checkitemId
  rfl

/-- C7: every gateway operation returns the decoded entity exactly when
the remote response status is 200 and an absent value otherwise (the
operations are total functions into `Option`, so no remote failure
raises); only `get_board_lists` signals its failure as a configuration
error value. -/
theorem gateway_contract :
    (∀ (status : Nat) (body : TCard) (listId nm : String),
      (status = 200 → create_card status body listId nm = some body) ∧
      (status ≠ 200 → create_card status body listId nm = none)) ∧
    (∀ (status : Nat) (body : TCard),
      (status = 200 → get_card_op status body = some body) ∧
      (status ≠ 200 → get_card_op status body = none)) ∧
    (∀ (status : Nat) (body : NamedChecklist) (cardId nm : String),
      (status = 200 → create_checklist status body cardId nm = some body) ∧
      (status ≠ 200 → create_checklist status body cardId nm = none)) ∧
    (∀ (status : Nat) (body : Checkitem) (clId nm : String),
      (status = 200 → add_checkitem status body clId nm = some body) ∧
      (status ≠ 200 → add_checkitem status body clId nm = none)) ∧
    (∀ (status : Nat) (body : TCard) (cardId url : String),
      (status = 200 → add_attachment status body cardId url = some body) ∧
      (status ≠ 200 → add_attachment status body cardId url = none)) ∧
    (∀ status : Nat, delete_card_op status = true ↔ status = 200) ∧
    (∀ (status : Nat) (body : Checkitem) (cardId ciId : String)
        (nm st : Option String),
      truthy nm = true ∨ truthy st = true →
      ((status = 200 →
          (update_checkitem status body cardId ciId nm st).1 = some body) ∧
       (status ≠ 200 →
          (update_checkitem status body cardId ciId nm st).1 = none))) ∧
    (∀ (status : Nat) (body : List TrelloList) (cfg : ListsCfg),
      status ≠ 200 →
      get_board_lists status body cfg =
        .error ("Request of music board's lists failed with status code "
          ++ toString status ++ ".")) := by
  refine ⟨?_, ?_, ?_, ?_, ?_, ?_, ?_, ?_⟩
  · intro status body listId nm
    exact ⟨fun h => by simp [create_card, h], fun h => by simp [create_card, h]⟩
  · intro status body
    exact ⟨fun h => by simp [get_card_op, h], fun h => by simp [get_card_op, h]⟩
  · intro status body cardId nm
    exact ⟨fun h => by simp [create_checklist, h],
      fun h => by simp [create_checklist, h]⟩
  · intro status body clId nm
    exact ⟨fun h => by simp [add_checkitem, h],
      fun h => by simp [add_checkitem, h]⟩
  · intro status body cardId url
    exact ⟨fun h => by simp [add_attachment, h],
      fun h => by simp [add_attachment, h]⟩
  · intro status
    simp [delete_card_op]
  · intro status body cardId ciId nm st hfield
    have hguard : (!truthy nm && !truthy st) = false := by
      rcases hfield with h | h <;> simp [h]
    constructor
    · intro h
      simp [update_checkitem, hguard, h]
    · intro h
      simp [update_checkitem, hguard, h]
  · intro status body cfg h
    simp [get_board_lists, h]

/-- Witness for C7 at concrete inputs. -/
theorem gateway_contract_witness :
    create_card 200 ⟨"c1", "Kid A", "u1"⟩ "l1" "Kid A" =
      some ⟨"c1", "Kid A", "u1"⟩ ∧
    create_card 404 ⟨"c1", "Kid A", "u1"⟩ "l1" "Kid A" = none ∧
    (update_checkitem 200 ⟨"t1", "Download", "complete"⟩ "c1" "t1" none
      (some "complete")).1 = some ⟨"t1", "Download", "complete"⟩ ∧
    get_board_lists 500 [] ⟨"A", "P", "D", "F"⟩ =
      .error ("Request of music board's lists failed with status code "
        ++ toString 500 ++ ".") :=
  ⟨(gateway_contract.1 200 ⟨"c1", "Kid A", "u1"⟩ "l1" "Kid A").1 rfl,
   (gateway_contract.1 404 ⟨"c1", "Kid A", "u1"⟩ "l1" "Kid A").2 (by decide),
   (gateway_contract.2.2.2.2.2.2.1 200 ⟨"t1", "Download", "complete"⟩ "c1" "t1"
      none (some "complete") (Or.inr (by decide))).1 rfl,
   gateway_contract.2.2.2.2.2.2.2 500 [] ⟨"A", "P", "D", "F"⟩ (by decide)⟩

/-- C9 counterexample: `read_file_lines_stripped` does not filter out
empty lines — a whitespace-only line yields an empty album title, so
"every returned album title is non-empty" fails on the file
`["   ", "OK Computer"]`. -/
theorem read_file_lines_nonempty_cex :
    ¬ (∀ t ∈ read_file_lines_stripped ["   ", "OK Computer"], t ≠ "") := by
  intro h
  exact h "" (by decide) rfl

/-- C9 (amended): the file-data collaborator maps each artist directory
to the whitespace-stripped lines of its manifest file in file order —
position by position the result is the stripped line (empty lines are
kept as empty titles, not dropped). -/
theorem read_file_lines_stripped_spec :
    (∀ lines : List String,
      (read_file_lines_stripped lines).length = lines.length) ∧
    (∀ (lines : List String) (i : Nat),
      (read_file_lines_stripped lines).getD i "" = pyStrip (lines.getD i "")) ∧
    (∀ (listing : List String) (manifest : String → List String)
        (a : String), a ∈ listing →
      (a, read_file_lines_stripped (manifest a)) ∈
        load_artists_albums listing manifest) := by
  refine ⟨?_, ?_, ?_⟩
  · intro lines
    simp [read_file_lines_stripped]
  · intro lines i
    induction lines generalizing i with
    | nil => cases i <;> rfl
    | cons l rest ih =>
      cases i with
      | zero => rfl
      | succ j =>
        simpa [read_file_lines_stripped] using ih j
  · intro listing manifest a ha
    exact List.mem_map_of_mem _ ha

/-- Witness for C9's amended theorem at a concrete file. -/
theorem read_file_lines_stripped_spec_witness :
    (read_file_lines_stripped ["  OK Computer ", "", "Kid A"]).getD 0 ""
      = pyStrip (["  OK Computer ", "", "Kid A"].getD 0 "") ∧
    "Radiohead" ∈ ["Radiohead"] ∧
    ("Radiohead", read_file_lines_stripped ["Kid A"]) ∈
      load_artists_albums ["Radiohead"] (fun _ => ["Kid A"]) :=
  ⟨read_file_lines_stripped_spec.2.1 ["  OK Computer ", "", "Kid A"] 0,
   by decide,
   read_file_lines_stripped_spec.2.2 ["Radiohead"] (fun _ => ["Kid A"])
     "Radiohead" (by decide)⟩

/-- Helper: the role binding computed by the overwrite-on-match loop of
`get_board_lists` is the last matching list in fetch order. -/
theorem resolveRole_eq_reverse_find (name : String) :
    ∀ ls : List TrelloList,
      resolveRole name ls = ls.reverse.find? (fun l => l.name == name) := by
  suffices h : ∀ (ls : List TrelloList) (acc : Option TrelloList),
      ls.foldl (fun a l => if l.name = name then some l else a) acc =
        (ls.reverse.find? (fun l => l.name == name)).or acc by
    intro ls
    simpa [resolveRole] using h ls none
  intro ls
  induction ls with
  | nil => intro acc; simp
  | cons l rest ih =>
    intro acc
    simp only [List.foldl_cons, List.reverse_cons, List.find?_append, ih]
    cases hf : rest.reverse.find? (fun l => l.name == name) with
    | some x => simp [Option.or]
    | none =>
      by_cases hl : l.name = name
      · have hb : (l.name == name) = true := by simp [hl]
        simp [hl, hb, Option.or, List.find?]
      · have hb : (l.name == name) = false := by simp [hl]
        simp [hl, hb, Option.or, List.find?]

/-- C6 counterexample: with two boards lists both named "A" configured
as the artists role, `get_board_lists` binds the role to the second
(last) matching list, not the first matching list as claimed. -/
theorem get_board_lists_first_match_cex :
    get_board_lists 200
      ([⟨"1", "A"⟩, ⟨"2", "A"⟩, ⟨"3", "P"⟩, ⟨"4", "D"⟩, ⟨"5", "F"⟩] :
        List TrelloList)
      ⟨"A", "P", "D", "F"⟩ =
      .ok ⟨⟨"2", "A"⟩, ⟨"3", "P"⟩, ⟨"4", "D"⟩, ⟨"5", "F"⟩⟩ ∧
    ([⟨"1", "A"⟩, ⟨"2", "A"⟩, ⟨"3", "P"⟩, ⟨"4", "D"⟩, ⟨"5", "F"⟩] :
        List TrelloList).find? (fun l => l.name == "A") = some ⟨"1", "A"⟩ ∧
    (⟨"2", "A"⟩ : TrelloList) ≠ ⟨"1", "A"⟩ :=
  ⟨rfl, rfl, by decide⟩

/-- C6 (amended): during board-topology resolution the LAST matching
list in fetch order is bound to each role; a non-200 fetch raises a
configuration error, and a role with no matching list raises a
configuration error naming the first missing role in the fixed order
artists, albums_pending, albums_doing, albums_done. -/
theorem get_board_lists_spec :
    (∀ (status : Nat) (body : List TrelloList) (cfg : ListsCfg),
      status ≠ 200 → ∃ msg, get_board_lists status body cfg = .error msg) ∧
    (∀ (body : List TrelloList) (cfg : ListsCfg) (r : ResolvedLists),
      get_board_lists 200 body cfg = .ok r →
      some r.artists =
        body.reverse.find? (fun l => l.name == cfg.artists_list_name) ∧
      some r.albums_pending =
        body.reverse.find? (fun l => l.name == cfg.albums_pending_list_name) ∧
      some r.albums_doing =
        body.reverse.find? (fun l => l.name == cfg.albums_doing_list_name) ∧
      some r.albums_done =
        body.reverse.find? (fun l => l.name == cfg.albums_done_list_name)) ∧
    (∀ (body : List TrelloList) (cfg : ListsCfg),
      resolveRole cfg.artists_list_name body = none →
      get_board_lists 200 body cfg = .error "Could not find artists board.") ∧
    (∀ (body : List TrelloList) (cfg : ListsCfg),
      (resolveRole cfg.artists_list_name body).isSome = true →
      resolveRole cfg.albums_pending_list_name body = none →
      get_board_lists 200 body cfg =
        .error "Could not find albums_pending board.") ∧
    (∀ (body : List TrelloList) (cfg : ListsCfg),
      (resolveRole cfg.artists_list_name body).isSome = true →
      (resolveRole cfg.albums_pending_list_name body).isSome = true →
      resolveRole cfg.albums_doing_list_name body = none →
      get_board_lists 200 body cfg =
        .error "Could not find albums_doing board.") ∧
    (∀ (body : List TrelloList) (cfg : ListsCfg),
      (resolveRole cfg.artists_list_name body).isSome = true →
      (resolveRole cfg.albums_pending_list_name body).isSome = true →
      (resolveRole cfg.albums_doing_list_name body).isSome = true →
      resolveRole cfg.albums_done_list_name body = none →
      get_board_lists 200 body cfg =
        .error "Could not find albums_done board.") := by
  refine ⟨?_, ?_, ?_, ?_, ?_, ?_⟩
  · intro status body cfg h
    exact ⟨"Request of music board's lists failed with status code "
      ++ toString status ++ ".", by simp [get_board_lists, h]⟩
  · intro body cfg r hok
    cases hA : resolveRole cfg.artists_list_name body with
    | none => simp [get_board_lists, hA] at hok
    | some a =>
    cases hP : resolveRole cfg.albums_pending_list_name body with
    | none => simp [get_board_lists, hA, hP] at hok
    | some p =>
    cases hD : resolveRole cfg.albums_doing_list_name body with
    | none => simp [get_board_lists, hA, hP, hD] at hok
    | some d =>
    cases hF : resolveRole cfg.albums_done_list_name body with
    | none => simp [get_board_lists, hA, hP, hD, hF] at hok
    | some f =>
      have hr : r = ⟨a, p, d, f⟩ := by
        simp [get_board_lists, hA, hP, hD, hF] at hok
        exact hok.symm
      subst hr
      exact ⟨by rw [← resolveRole_eq_reverse_find, hA],
        by rw [← resolveRole_eq_reverse_find, hP],
        by rw [← resolveRole_eq_reverse_find, hD],
        by rw [← resolveRole_eq_reverse_find, hF]⟩
  · intro body cfg hA
    simp [get_board_lists, hA]
  · intro body cfg hA hP
    obtain ⟨a, ha⟩ := Option.isSome_iff_exists.mp hA
    simp [get_board_lists, ha, hP]
  · intro body cfg hA hP hD
    obtain ⟨a, ha⟩ := Option.isSome_iff_exists.mp hA
    obtain ⟨p, hp⟩ := Option.isSome_iff_exists.mp hP
    simp [get_board_lists, ha, hp, hD]
  · intro body cfg hA hP hD hF
    obtain ⟨a, ha⟩ := Option.isSome_iff_exists.mp hA
    obtain ⟨p, hp⟩ := Option.isSome_iff_exists.mp hP
    obtain ⟨d, hd⟩ := Option.isSome_iff_exists.mp hD
    simp [get_board_lists, ha, hp, hd, hF]

/-- Witness for C6's amended theorem at a concrete board. -/
theorem get_board_lists_spec_witness :
    (∃ msg, get_board_lists 500 ([] : List TrelloList) ⟨"A", "P", "D", "F"⟩ =
      .error msg) ∧
    get_board_lists 200 ([⟨"3", "P"⟩] : List TrelloList) ⟨"A", "P", "D", "F"⟩ =
      .error "Could not find artists board." :=
  ⟨get_board_lists_spec.1 500 [] ⟨"A", "P", "D", "F"⟩ (by decide),
   get_board_lists_spec.2.2.1 [⟨"3", "P"⟩] ⟨"A", "P", "D", "F"⟩ rfl⟩

/-- Helper: removing a freshly appended card restores the board when no
pre-existing card shares its id. -/
theorem removeCard_fresh (board : List TCard) (card : TCard)
    (h : ∀ c ∈ board, c.id ≠ card.id) :
    removeCard (board ++ [card]) card.id = board := by
  unfold removeCard
  rw [List.filter_append]
  have h1 : board.filter (fun c => !(c.id == card.id)) = board :=
    List.filter_eq_self.mpr (fun c hc => by simp [h c hc])
  have h2 : [card].filter (fun c => !(c.id == card.id)) = [] := by simp
  rw [h1, h2, List.append_nil]

/-- Helper: the checkitem-add loop of `create_album_card` adds all four
items exactly when the four add requests all succeed. -/
theorem countP_range4 (ok : Nat → Bool) :
    (List.range 4).countP (fun i => ok (2 + i)) = 4 ↔
      (ok 2 = true ∧ ok 3 = true ∧ ok 4 = true ∧ ok 5 = true) := by
  have hr : List.range 4 = [0, 1, 2, 3] := rfl
  cases h2 : ok 2 <;> cases h3 : ok 3 <;> cases h4 : ok 4 <;> cases h5 : ok 5 <;>
    simp [hr, List.countP_cons, List.countP_nil, h2, h3, h4, h5]

/-- C2 counterexample: with the card creation succeeding, the Tasks
checklist creation failing, and the compensating delete also failing
remotely, `create_album_card` reports no card yet an album card for the
title remains on the board — the claimed all-or-nothing outcome does
not hold when the rollback delete itself fails. -/
theorem create_album_card_rollback_cex :
    (create_album_card (fun n => n == 0) "P" "Kid A" "u" "c1" "su1" "ch1"
      []).1 = none ∧
    ((create_album_card (fun n => n == 0) "P" "Kid A" "u" "c1" "su1" "ch1"
      []).2.1.any (fun c => c.name == "Kid A")) = true :=
  ⟨rfl, rfl⟩

/-- C2 (amended): `create_album_card` returns a card exactly when the
card creation, the Tasks-checklist creation, all four task-checkitem
adds and the back-attachment succeed, in which case the new card is
appended to the board; in every failed run after the card was created
it issues a delete for that card, and when the rollback delete succeeds
(and the new id is fresh) the board is restored exactly to its previous
contents, so no album card for the title remains beyond those already
present. -/
theorem create_album_card_rollback :
    ∀ (ok : Nat → Bool) (p album artistUrl newId newShortUrl newChk : String)
      (board : List TCard),
      ((create_album_card ok p album artistUrl newId newShortUrl newChk
          board).1.isSome = true ↔
        (ok 0 && ok 1 && ok 2 && ok 3 && ok 4 && ok 5 && ok 6) = true) ∧
      (∀ c, (create_album_card ok p album artistUrl newId newShortUrl newChk
          board).1 = some c →
        c = ⟨newId, album, newShortUrl⟩ ∧
        (create_album_card ok p album artistUrl newId newShortUrl newChk
          board).2.1 = board ++ [c]) ∧
      ((create_album_card ok p album artistUrl newId newShortUrl newChk
          board).1 = none → ok 0 = true →
        GReq.deleteCard newId ∈
          (create_album_card ok p album artistUrl newId newShortUrl newChk
            board).2.2) ∧
      ((∀ c ∈ board, c.id ≠ newId) →
        (ok 0 = false →
          (create_album_card ok p album artistUrl newId newShortUrl newChk
            board).2.1 = board) ∧
        (ok 0 = true → ok 1 = false → ok 2 = true →
          (create_album_card ok p album artistUrl newId newShortUrl newChk
            board).2.1 = board) ∧
        (ok 0 = true → ok 1 = true →
          (List.range 4).countP (fun i => ok (2 + i)) ≠ 4 → ok 6 = true →
          (create_album_card ok p album artistUrl newId newShortUrl newChk
            board).2.1 = board) ∧
        (ok 0 = true → ok 1 = true →
          (List.range 4).countP (fun i => ok (2 + i)) = 4 → ok 6 = false →
          ok 7 = true →
          (create_album_card ok p album artistUrl newId newShortUrl newChk
            board).2.1 = board)) := by
  intro ok p album artistUrl newId newShortUrl newChk board
  cases h0 : ok 0 with
  | false =>
    refine ⟨by simp [create_album_card, h0], ?_, ?_, ?_⟩
    · intro c hc
      simp [create_album_card, h0] at hc
    · intro _ hok0
      cases hok0
    · intro _
      refine ⟨?_, ?_, ?_, ?_⟩
      · intro _
        simp [create_album_card, h0]
      · intro hok0
        cases hok0
      · intro hok0
        cases hok0
      · intro hok0
        cases hok0
  | true =>
    cases h1 : ok 1 with
    | false =>
      refine ⟨by simp [create_album_card, h0, h1], ?_, ?_, ?_⟩
      · intro c hc
        simp [create_album_card, h0, h1] at hc
      · intro _ _
        simp [create_album_card, h0, h1]
      · intro hfresh
        have hrem := removeCard_fresh board ⟨newId, album, newShortUrl⟩ hfresh
        refine ⟨?_, ?_, ?_, ?_⟩
        · intro hok0
          cases hok0
        · intro _ _ h2
          simp [create_album_card, h0, h1, h2, hrem]
        · intro _ hok1
          cases hok1
        · intro _ hok1
          cases hok1
    | true =>
      by_cases hcnt :
          (List.range 4).countP (fun i => ok (2 + i)) = 4
      · obtain ⟨h2, h3, h4, h5⟩ := (countP_range4 ok).mp hcnt
        cases h6 : ok 6 with
        | false =>
          refine ⟨?_, ?_, ?_, ?_⟩
          · simp [create_album_card, h0, h1, h2, h3, h4, h5, h6, hcnt]
          · intro c hc
            simp [create_album_card, h0, h1, hcnt, h6] at hc
          · intro _ _
            simp [create_album_card, h0, h1, hcnt, h6]
          · intro hfresh
            have hrem := removeCard_fresh board ⟨newId, album, newShortUrl⟩
              hfresh
            refine ⟨?_, ?_, ?_, ?_⟩
            · intro hok0
              cases hok0
            · intro _ hok1
              cases hok1
            · intro _ _ hc4 _
              exact absurd hcnt hc4
            · intro _ _ _ _ h7
              simp [create_album_card, h0, h1, hcnt, h6, h7, hrem]
        | true =>
          refine ⟨?_, ?_, ?_, ?_⟩
          · simp [create_album_card, h0, h1, h2, h3, h4, h5, h6, hcnt]
          · intro c hc
            simp only [create_album_card, h0, h1, hcnt, h6] at hc
            simp at hc
            exact ⟨hc.symm, by
              simp [create_album_card, h0, h1, hcnt, h6, ← hc]⟩
          · intro hnone _
            simp [create_album_card, h0, h1, hcnt, h6] at hnone
          · intro _
            refine ⟨?_, ?_, ?_, ?_⟩
            · intro hok0
              cases hok0
            · intro _ hok1
              cases hok1
            · intro _ _ hc4 _
              exact absurd hcnt hc4
            · intro _ _ _ hok6 _
              cases hok6
      · have hbool4 : ¬(ok 2 = true ∧ ok 3 = true ∧ ok 4 = true ∧ ok 5 = true) :=
          fun hall => hcnt ((countP_range4 ok).mpr hall)
        refine ⟨?_, ?_, ?_, ?_⟩
        · simp [create_album_card, h0, h1, hcnt]
          intro h2 h3 h4 h5
          exact absurd ⟨h2, h3, h4, h5⟩ hbool4
        · intro c hc
          simp [create_album_card, h0, h1, hcnt] at hc
        · intro _ _
          simp [create_album_card, h0, h1, hcnt]
        · intro hfresh
          have hrem := removeCard_fresh board ⟨newId, album, newShortUrl⟩
            hfresh
          refine ⟨?_, ?_, ?_, ?_⟩
          · intro hok0
            cases hok0
          · intro _ hok1
            cases hok1
          · intro _ _ _ h6
            simp [create_album_card, h0, h1, hcnt, h6, hrem]
          · intro _ _ hc4
            exact absurd hc4 hcnt

/-- Witness for C2's amended theorem: the checklist-creation-failure
rollback (delete is the third request) and the attachment-failure
rollback (delete is the eighth request) both restore the board when the
delete succeeds. -/
theorem create_album_card_rollback_witness :
    (create_album_card (fun n => !(n == 1)) "P" "Kid A" "u" "c1" "su1" "ch1"
      []).2.1 = [] ∧
    (create_album_card (fun n => !(n == 6)) "P" "Kid A" "u" "c1" "su1" "ch1"
      []).2.1 = [] :=
  ⟨((create_album_card_rollback (fun n => !(n == 1)) "P" "Kid A" "u" "c1"
      "su1" "ch1" []).2.2.2 (by simp)).2.1 rfl rfl rfl,
   ((create_album_card_rollback (fun n => !(n == 6)) "P" "Kid A" "u" "c1"
      "su1" "ch1" []).2.2.2 (by simp)).2.2.2 rfl rfl (by decide) rfl rfl⟩

/-- Helper: the linking-pass loop preserves the number of checkitems. -/
theorem clacLoop_length (create : String → Option TCard) (ok : Nat → Bool)
    (aid : String) :
    ∀ (cis : List Checkitem) (n : Nat),
      (clacLoop create ok aid cis n).1.length = cis.length := by
  intro cis
  induction cis with
  | nil => intro n; rfl
  | cons ci rest ih =>
    intro n
    by_cases hl : pyStartsWith ci.name "http"
    · simpa [clacLoop, hl] using ih n
    · cases hc : create ci.name with
      | none => simpa [clacLoop, hl, hc] using ih n
      | some c =>
        cases ho : ok n with
        | true => simpa [clacLoop, hl, hc, ho] using ih (n + 1)
        | false => simpa [clacLoop, hl, hc, ho] using ih (n + 1)

/-- Helper: every unlinked checkitem triggers an album-card creation
attempt. -/
theorem clacLoop_create_mem (create : String → Option TCard) (ok : Nat → Bool)
    (aid : String) :
    ∀ (cis : List Checkitem) (n : Nat) (ci : Checkitem), ci ∈ cis →
      pyStartsWith ci.name "http" = false →
      CLReq.create ci.name ∈ (clacLoop create ok aid cis n).2.2.1 := by
  intro cis
  induction cis with
  | nil => intro n ci h; cases h
  | cons hd rest ih =>
    intro n ci hmem hlink
    rcases List.mem_cons.mp hmem with rfl | htail
    · cases hc : create ci.name with
      | none => simp [clacLoop, hlink, hc]
      | some c =>
        cases ho : ok n with
        | true => simp [clacLoop, hlink, hc, ho]
        | false => simp [clacLoop, hlink, hc, ho]
    · by_cases hl : pyStartsWith hd.name "http"
      · simpa [clacLoop, hl] using ih n ci htail hlink
      · cases hc : create hd.name with
        | none =>
          have := ih n ci htail hlink
          simp [clacLoop, hl, hc, this]
        | some c =>
          cases ho : ok n with
          | true =>
            have := ih (n + 1) ci htail hlink
            simp [clacLoop, hl, hc, ho, this]
          | false =>
            have := ih (n + 1) ci htail hlink
            simp [clacLoop, hl, hc, ho, this]

/-- Helper: every unlinked checkitem whose album card gets created
triggers an update request rewriting exactly that checkitem to the new
card's short URL with state incomplete. -/
theorem clacLoop_update_mem (create : String → Option TCard) (ok : Nat → Bool)
    (aid : String) :
    ∀ (cis : List Checkitem) (n : Nat) (ci : Checkitem), ci ∈ cis →
      pyStartsWith ci.name "http" = false →
      ∀ c, create ci.name = some c →
      CLReq.update aid ci.id (some c.shortUrl) (some "incomplete") ∈
        (clacLoop create ok aid cis n).2.2.1 := by
  intro cis
  induction cis with
  | nil => intro n ci h; cases h
  | cons hd rest ih =>
    intro n ci hmem hlink c hc
    rcases List.mem_cons.mp hmem with rfl | htail
    · cases ho : ok n with
      | true => simp [clacLoop, hlink, hc, ho]
      | false => simp [clacLoop, hlink, hc, ho]
    · by_cases hl : pyStartsWith hd.name "http"
      · simpa [clacLoop, hl] using ih n ci htail hlink c hc
      · cases hc2 : create hd.name with
        | none =>
          have := ih n ci htail hlink c hc
          simp [clacLoop, hl, hc2, this]
        | some c2 =>
          cases ho : ok n with
          | true =>
            have := ih (n + 1) ci htail hlink c hc
            simp [clacLoop, hl, hc2, ho, this]
          | false =>
            have := ih (n + 1) ci htail hlink c hc
            simp [clacLoop, hl, hc2, ho, this]

/-- Helper: checkitems already in linked form come out of the linking
pass unchanged, position by position. -/
theorem clacLoop_linked_getD (create : String → Option TCard) (ok : Nat → Bool)
    (aid : String) :
    ∀ (cis : List Checkitem) (n : Nat) (i : Nat), i < cis.length →
      pyStartsWith (cis.getD i defaultCheckitem).name "http" = true →
      (clacLoop create ok aid cis n).1.getD i defaultCheckitem =
        cis.getD i defaultCheckitem := by
  intro cis
  induction cis with
  | nil => intro n i h; cases h
  | cons hd rest ih =>
    intro n i hi hlink
    cases i with
    | zero =>
      have hl : pyStartsWith hd.name "http" = true := by simpa using hlink
      simp [clacLoop, hl]
    | succ j =>
      have hj : j < rest.length := Nat.lt_of_succ_lt_succ hi
      have hlink2 : pyStartsWith (rest.getD j defaultCheckitem).name "http"
          = true := by simpa using hlink
      by_cases hl : pyStartsWith hd.name "http"
      · simpa [clacLoop, hl] using ih n j hj hlink2
      · cases hc : create hd.name with
        | none => simpa [clacLoop, hl, hc] using ih n j hj hlink2
        | some c =>
          cases ho : ok n with
          | true => simpa [clacLoop, hl, hc, ho] using ih (n + 1) j hj hlink2
          | false => simpa [clacLoop, hl, hc, ho] using ih (n + 1) j hj hlink2

/-- Helper: with every update succeeding, the linking pass rewrites the
checklist position by position per `linkStep`. -/
theorem clacLoop_okTrue_getD (create : String → Option TCard) (aid : String) :
    ∀ (cis : List Checkitem) (n : Nat) (i : Nat), i < cis.length →
      (clacLoop create okTrue aid cis n).1.getD i defaultCheckitem =
        linkStep create (cis.getD i defaultCheckitem) := by
  intro cis
  induction cis with
  | nil => intro n i h; cases h
  | cons hd rest ih =>
    intro n i hi
    cases i with
    | zero =>
      by_cases hl : pyStartsWith hd.name "http"
      · simp [clacLoop, hl, linkStep]
      · cases hc : create hd.name with
        | none => simp [clacLoop, hl, hc, linkStep]
        | some c => simp [clacLoop, hl, hc, okTrue, linkStep]
    | succ j =>
      have hj : j < rest.length := Nat.lt_of_succ_lt_succ hi
      by_cases hl : pyStartsWith hd.name "http"
      · simpa [clacLoop, hl] using ih n j hj
      · cases hc : create hd.name with
        | none => simpa [clacLoop, hl, hc] using ih n j hj
        | some c => simpa [clacLoop, hl, hc, okTrue] using ih (n + 1) j hj

/-- C5: in the linking pass, every checkitem in unlinked (literal
title) form triggers an album-card creation attempt, and on creation
success an update rewriting that checkitem in place to the new card's
short URL with state explicitly forced to incomplete; when the updates
succeed the final checklist is exactly the in-place rewriting, and
linked-form checkitems are left untouched. -/
theorem create_linked_album_cards_spec :
    ∀ (create : String → Option TCard) (ok : Nat → Bool)
      (artistCardId : String) (cis : List Checkitem),
      ((create_linked_album_cards create ok true artistCardId cis).1.length
        = cis.length) ∧
      (∀ ci ∈ cis, pyStartsWith ci.name "http" = false →
        CLReq.create ci.name ∈
          (create_linked_album_cards create ok true artistCardId cis).2.2) ∧
      (∀ ci ∈ cis, pyStartsWith ci.name "http" = false →
        ∀ c, create ci.name = some c →
          CLReq.update artistCardId ci.id (some c.shortUrl)
              (some "incomplete") ∈
            (create_linked_album_cards create ok true artistCardId cis).2.2) ∧
      (∀ i : Nat, i < cis.length →
        pyStartsWith (cis.getD i defaultCheckitem).name "http" = true →
        (create_linked_album_cards create ok true artistCardId cis).1.getD i
            defaultCheckitem = cis.getD i defaultCheckitem) ∧
      (∀ i : Nat, i < cis.length →
        (create_linked_album_cards create okTrue true artistCardId cis).1.getD
            i defaultCheckitem =
          linkStep create (cis.getD i defaultCheckitem)) := by
  intro create ok artistCardId cis
  refine ⟨?_, ?_, ?_, ?_, ?_⟩
  · simpa [create_linked_album_cards] using clacLoop_length create ok artistCardId cis 0
  · intro ci hmem hlink
    simpa [create_linked_album_cards] using
      clacLoop_create_mem create ok artistCardId cis 0 ci hmem hlink
  · intro ci hmem hlink c hc
    simpa [create_linked_album_cards] using
      clacLoop_update_mem create ok artistCardId cis 0 ci hmem hlink c hc
  · intro i hi hlink
    simpa [create_linked_album_cards] using
      clacLoop_linked_getD create ok artistCardId cis 0 i hi hlink
  · intro i hi
    simpa [create_linked_album_cards] using
      clacLoop_okTrue_getD create artistCardId cis 0 i hi

/-- Witness for C5 at a concrete checklist: one unlinked entry (whose
card creation succeeds) and one linked entry. -/
theorem create_linked_album_cards_spec_witness :
    CLReq.update "a1" "i1" (some "su1") (some "incomplete") ∈
      (create_linked_album_cards
        (fun _ => some ⟨"c1", "Kid A", "su1"⟩) okTrue true "a1"
        [⟨"i1", "Kid A", "incomplete"⟩, ⟨"i2", "https://x/y", "complete"⟩]).2.2 ∧
    (create_linked_album_cards
        (fun _ => some ⟨"c1", "Kid A", "su1"⟩) okTrue true "a1"
        [⟨"i1", "Kid A", "incomplete"⟩, ⟨"i2", "https://x/y", "complete"⟩]).1.getD
      1 defaultCheckitem = ⟨"i2", "https://x/y", "complete"⟩ :=
  ⟨(create_linked_album_cards_spec (fun _ => some ⟨"c1", "Kid A", "su1"⟩)
      okTrue "a1"
      [⟨"i1", "Kid A", "incomplete"⟩, ⟨"i2", "https://x/y", "complete"⟩]).2.2.1
    ⟨"i1", "Kid A", "incomplete"⟩ (by decide) (by decide)
    ⟨"c1", "Kid A", "su1"⟩ rfl,
   (create_linked_album_cards_spec (fun _ => some ⟨"c1", "Kid A", "su1"⟩)
      okTrue "a1"
      [⟨"i1", "Kid A", "incomplete"⟩, ⟨"i2", "https://x/y", "complete"⟩]).2.2.2.1
    1 (by decide) (by decide)⟩

/-- C8: the status reporters are read-only (their embedding consumes a
fetch snapshot and emits no request) and return an absent result — a
non-zero exit for the caller — whenever the artist card, the Albums
checklist, its checkitems, or the specific album cannot be resolved;
in particular `artist_status` returns a report for every artist whose
card and Albums checklist exist (with resolvable, non-empty
checkitems). -/
theorem status_reporter_absent_on_unresolved :
    (∀ (b : Board) (artist : String), get_artist_card b artist = none →
      artist_status b artist = none) ∧
    (∀ (b : Board) (artist : String) (card : TCard),
      get_artist_card b artist = some card →
      get_artist_card_albums_checklist b card.id = none →
      artist_status b artist = none) ∧
    (∀ (b : Board) (artist : String) (card : TCard) (cl : NamedChecklist),
      get_artist_card b artist = some card →
      get_artist_card_albums_checklist b card.id = some cl →
      get_checkitems b cl.id = [] →
      artist_status b artist = none) ∧
    (∀ (b : Board) (artist : String) (card : TCard) (cl : NamedChecklist),
      get_artist_card b artist = some card →
      get_artist_card_albums_checklist b card.id = some cl →
      get_checkitems b cl.id ≠ [] →
      (artist_status b artist).isSome = true) ∧
    (∀ (b : Board) (artist album : String),
      get_artist_card b artist = none →
      album_status b artist album = none) ∧
    (∀ (b : Board) (artist album : String) (card : TCard),
      get_artist_card b artist = some card →
      get_artist_card_albums_checklist b card.id = none →
      album_status b artist album = none) ∧
    (∀ (b : Board) (artist album : String) (card : TCard)
        (cl : NamedChecklist),
      get_artist_card b artist = some card →
      get_artist_card_albums_checklist b card.id = some cl →
      get_checkitems b cl.id = [] →
      album_status b artist album = none) ∧
    (∀ (b : Board) (artist album : String) (card : TCard)
        (cl : NamedChecklist),
      get_artist_card b artist = some card →
      get_artist_card_albums_checklist b card.id = some cl →
      findAlbumCard b album (get_checkitems b cl.id) = .unlinkedHit →
      album_status b artist album = none) ∧
    (∀ (b : Board) (artist album : String) (card : TCard)
        (cl : NamedChecklist),
      get_artist_card b artist = some card →
      get_artist_card_albums_checklist b card.id = some cl →
      findAlbumCard b album (get_checkitems b cl.id) = .notFound →
      album_status b artist album = none) ∧
    (∀ (b : Board) (artist album : String) (card : TCard)
        (cl : NamedChecklist) (c : TCard) (st : String),
      get_artist_card b artist = some card →
      get_artist_card_albums_checklist b card.id = some cl →
      findAlbumCard b album (get_checkitems b cl.id) = .found c st →
      get_album_card_tasks_checklist b c.id = none →
      album_status b artist album = none) ∧
    (∀ (b : Board) (artist album : String) (card : TCard)
        (cl : NamedChecklist) (c : TCard) (st : String)
        (tcl : NamedChecklist),
      get_artist_card b artist = some card →
      get_artist_card_albums_checklist b card.id = some cl →
      findAlbumCard b album (get_checkitems b cl.id) = .found c st →
      get_album_card_tasks_checklist b c.id = some tcl →
      get_checkitems b tcl.id = [] →
      album_status b artist album = none) := by
  refine ⟨?_, ?_, ?_, ?_, ?_, ?_, ?_, ?_, ?_, ?_, ?_⟩
  · intro b artist h
    simp [artist_status, h]
  · intro b artist card h1 h2
    simp [artist_status, h1, h2]
  · intro b artist card cl h1 h2 h3
    simp [artist_status, h1, h2, h3]
  · intro b artist card cl h1 h2 h3
    have he : (get_checkitems b cl.id).isEmpty = false := by
      simpa [List.isEmpty_iff] using h3
    simp [artist_status, h1, h2, he]
  · intro b artist album h
    simp [album_status, h]
  · intro b artist album card h1 h2
    simp [album_status, h1, h2]
  · intro b artist album card cl h1 h2 h3
    simp [album_status, h1, h2, h3]
  · intro b artist album card cl h1 h2 h3
    have hne : (get_checkitems b cl.id).isEmpty = false := by
      rcases hq : get_checkitems b cl.id with _ | _
      · rw [hq] at h3; simp [findAlbumCard] at h3
      · simp
    simp [album_status, h1, h2, hne, h3]
  · intro b artist album card cl h1 h2 h3
    have hne : (get_checkitems b cl.id).isEmpty = false ∨
        (get_checkitems b cl.id).isEmpty = true := by
      cases (get_checkitems b cl.id).isEmpty
      · exact Or.inl rfl
      · exact Or.inr rfl
    rcases hne with hne | hne
    · simp [album_status, h1, h2, hne, h3]
    · simp [album_status, h1, h2, hne]
  · intro b artist album card cl c st h1 h2 h3 h4
    have hne : (get_checkitems b cl.id).isEmpty = false := by
      rcases hq : get_checkitems b cl.id with _ | _
      · rw [hq] at h3; simp [findAlbumCard] at h3
      · simp
    simp [album_status, h1, h2, hne, h3, h4]
  · intro b artist album card cl c st tcl h1 h2 h3 h4 h5
    have hne : (get_checkitems b cl.id).isEmpty = false := by
      rcases hq : get_checkitems b cl.id with _ | _
      · rw [hq] at h3; simp [findAlbumCard] at h3
      · simp
    simp [album_status, h1, h2, hne, h3, h4, h5]

/-- Witness for C8 at concrete boards. -/
theorem status_reporter_absent_witness :
    artist_status ⟨[], fun _ => [], fun _ => [], fun _ => none⟩ "X" = none ∧
    album_status ⟨[⟨"a1", "X", "u"⟩], fun _ => [], fun _ => [], fun _ => none⟩
      "X" "Y" = none :=
  ⟨status_reporter_absent_on_unresolved.1
     ⟨[], fun _ => [], fun _ => [], fun _ => none⟩ "X" rfl,
   status_reporter_absent_on_unresolved.2.2.2.2.2.1
     ⟨[⟨"a1", "X", "u"⟩], fun _ => [], fun _ => [], fun _ => none⟩
     "X" "Y" ⟨"a1", "X", "u"⟩ rfl rfl⟩

/-- Helper: the state an updated task checkitem ends in, as a function
of its snapshot state and of being requested. -/
theorem ifCond_state_complete (ts : List String) (x : Checkitem) :
    ((if taskCond ts x then (⟨x.id, x.name, "complete"⟩ : Checkitem)
      else x).state == "complete") =
      ((x.state == "complete") || ts.contains x.name) := by
  unfold taskCond
  cases h1 : ts.contains x.name <;> cases h2 : x.state == "complete" <;>
    simp [h1, h2]

/-- Helper: after a reset step every fixed-named task checkitem is not
complete. -/
theorem ifReset_state_complete (x : Checkitem)
    (hx : album_tasks.contains x.name = true) :
    ((if resetCond x then (⟨x.id, x.name, "incomplete"⟩ : Checkitem)
      else x).state == "complete") = false := by
  have hx2 : x.name ∈ album_tasks := by simpa using hx
  unfold resetCond
  cases h2 : x.state == "complete" <;> simp [hx2, h2]

/-- Helper: with distinct checkitem ids, the membership test used in
the board characterisation collapses to the condition on the element
itself. -/
theorem any_cond_id_eq (p : Checkitem → Bool) (l : List Checkitem)
    (hnd : (l.map Checkitem.id).Nodup) (x : Checkitem) (hx : x ∈ l) :
    (l.any (fun ci => p ci && ci.id == x.id)) = p x := by
  cases hp : p x with
  | true => exact List.any_eq_true.mpr ⟨x, hx, by simp [hp]⟩
  | false =>
    rw [List.any_eq_false]
    intro ci hci
    intro hcontra
    rw [Bool.and_eq_true] at hcontra
    have hid : ci.id = x.id := by simpa using hcontra.2
    have : ci = x :=
      List.inj_on_of_nodup_map hnd hci hx hid
    rw [this] at hcontra
    rw [hcontra.1] at hp
    cases hp

/-- Helper: the conditional-update fold only rewrites the task
checkitems: position by position an item is forced to the new state
exactly when some processed checkitem with its id satisfies the update
condition. -/
theorem condBoardF_eq (cond : Checkitem → Bool) (st cardId : String) :
    ∀ (cis : List Checkitem) (b : AlbumState), b.cardId = cardId →
      condBoardF cond st cardId cis b =
        { b with taskItems := b.taskItems.map (fun x =>
            if cis.any (fun ci => cond ci && ci.id == x.id) then
              ⟨x.id, x.name, st⟩
            else x) } := by
  intro cis
  induction cis with
  | nil =>
    intro b hb
    simp [condBoardF]
  | cons ci rest ih =>
    intro b hb
    by_cases hc : cond ci
    · have happ : applyReq b (Req.updateCheckitem cardId ci.id none (some st)) =
          { b with taskItems := b.taskItems.map (fun x =>
              if x.id = ci.id then ⟨x.id, x.name, st⟩ else x) } := by
        simp [applyReq, hb.symm]
      have hstep : condBoardF cond st cardId (ci :: rest) b =
          condBoardF cond st cardId rest
            { b with taskItems := b.taskItems.map (fun x =>
                if x.id = ci.id then ⟨x.id, x.name, st⟩ else x) } := by
        simp [condBoardF, hc, happ]
      rw [hstep, ih { b with taskItems := b.taskItems.map (fun x =>
        if x.id = ci.id then ⟨x.id, x.name, st⟩ else x) } hb]
      have hfun :
          ((fun x : Checkitem =>
              if rest.any (fun ci => cond ci && ci.id == x.id) then
                (⟨x.id, x.name, st⟩ : Checkitem)
              else x) ∘
            (fun x : Checkitem =>
              if x.id = ci.id then (⟨x.id, x.name, st⟩ : Checkitem)
              else x)) =
          (fun x : Checkitem =>
            if (ci :: rest).any (fun ci => cond ci && ci.id == x.id) then
              (⟨x.id, x.name, st⟩ : Checkitem)
            else x) := by
        funext x
        by_cases hx : x.id = ci.id
        · simp [Function.comp, hx, hc]
        · have hbeq : (ci.id == x.id) = false := by
            simp
            intro h
            exact absurd h.symm hx
          simp [Function.comp, hx, hc, hbeq]
      simp only [List.map_map, hfun]
    · have hstep : condBoardF cond st cardId (ci :: rest) b =
          condBoardF cond st cardId rest b := by
        simp [condBoardF, hc]
      rw [hstep, ih _ hb]
      have hfun :
          (fun x : Checkitem =>
            if rest.any (fun ci => cond ci && ci.id == x.id) then
              (⟨x.id, x.name, st⟩ : Checkitem)
            else x) =
          (fun x : Checkitem =>
            if (ci :: rest).any (fun ci => cond ci && ci.id == x.id) then
              (⟨x.id, x.name, st⟩ : Checkitem)
            else x) := by
        funext x
        simp [hc]
      rw [hfun]

/-- Helper: a fully successful `complete_tasks` loop run computes the
completion dict, applies every conditional update to the board, and
appends the corresponding requests. -/
theorem ctLoop_okTrue_eq (cardId : String) (tasks : List String) :
    ∀ (cis : List Checkitem) (acc : List (String × Bool)) (b : AlbumState)
      (tr : List Req) (n : Nat),
      ctLoop okTrue cardId tasks cis acc b tr n =
        (some (ctAccF tasks cis acc),
         condBoardF (taskCond tasks) "complete" cardId cis b,
         tr ++ condReqsF (taskCond tasks) "complete" cardId cis,
         n + cis.countP (taskCond tasks)) := by
  intro cis
  induction cis with
  | nil =>
    intro acc b tr n
    simp [ctLoop, ctAccF, condBoardF, condReqsF]
  | cons ci rest ih =>
    intro acc b tr n
    cases hc : taskCond tasks ci with
    | true =>
      have hcontains : tasks.contains ci.name = true := by
        cases hct : tasks.contains ci.name with
        | true => rfl
        | false =>
          exfalso
          have hts : taskCond tasks ci = false := by
            unfold taskCond
            rw [hct]
            rfl
          rw [hts] at hc
          exact Bool.noConfusion hc
      have hval : (ci.state == "complete" || tasks.contains ci.name)
          = true := by
        rw [hcontains]
        simp
      have hstep : ctLoop okTrue cardId tasks (ci :: rest) acc b tr n =
          ctLoop okTrue cardId tasks rest (dictSet acc ci.name true)
            (applyReq b (Req.updateCheckitem cardId ci.id none
              (some "complete")))
            (tr ++ [Req.updateCheckitem cardId ci.id none (some "complete")])
            (n + 1) := by
        simp [ctLoop, hc, okTrue]
      rw [hstep, ih]
      simp only [Prod.mk.injEq]
      refine ⟨?_, ?_, ?_, ?_⟩
      · have hunf : ctAccF tasks (ci :: rest) acc =
            ctAccF tasks rest (dictSet acc ci.name
              (ci.state == "complete" || tasks.contains ci.name)) := rfl
        rw [hunf, hval]
      · have hunf : condBoardF (taskCond tasks) "complete" cardId
            (ci :: rest) b =
            condBoardF (taskCond tasks) "complete" cardId rest
              (if taskCond tasks ci then
                applyReq b (Req.updateCheckitem cardId ci.id none
                  (some "complete"))
              else b) := rfl
        rw [hunf, if_pos hc]
      · have hreq : condReqsF (taskCond tasks) "complete" cardId
            (ci :: rest) =
            Req.updateCheckitem cardId ci.id none (some "complete") ::
              condReqsF (taskCond tasks) "complete" cardId rest := by
          simp [condReqsF, hc]
        rw [hreq]
        simp
      · rw [List.countP_cons]
        simp [hc]
        omega
    | false =>
      have hval : (ci.state == "complete" || tasks.contains ci.name) =
          (ci.state == "complete") := by
        cases hct : tasks.contains ci.name with
        | false => simp
        | true =>
          cases hcc : ci.state == "complete" with
          | true => simp [hcc]
          | false =>
            exfalso
            have hts : taskCond tasks ci = true := by
              unfold taskCond
              rw [hct, hcc]
              rfl
            rw [hts] at hc
            exact Bool.noConfusion hc
      have hstep : ctLoop okTrue cardId tasks (ci :: rest) acc b tr n =
          ctLoop okTrue cardId tasks rest
            (dictSet acc ci.name (ci.state == "complete")) b tr n := by
        simp [ctLoop, hc]
      rw [hstep, ih]
      simp only [Prod.mk.injEq]
      refine ⟨?_, ?_, ?_, ?_⟩
      · have hunf : ctAccF tasks (ci :: rest) acc =
            ctAccF tasks rest (dictSet acc ci.name
              (ci.state == "complete" || tasks.contains ci.name)) := rfl
        rw [hunf, hval]
      · have hunf : condBoardF (taskCond tasks) "complete" cardId
            (ci :: rest) b =
            condBoardF (taskCond tasks) "complete" cardId rest
              (if taskCond tasks ci then
                applyReq b (Req.updateCheckitem cardId ci.id none
                  (some "complete"))
              else b) := rfl
        rw [hunf, if_neg (by simp [hc])]
      · have hreq : condReqsF (taskCond tasks) "complete" cardId
            (ci :: rest) =
            condReqsF (taskCond tasks) "complete" cardId rest := by
          simp [condReqsF, hc]
        rw [hreq]
      · rw [List.countP_cons]
        simp [hc]

/-- Helper: a fully successful `reset_tasks` loop run applies every
conditional reset update. -/
theorem rtLoop_okTrue_eq (cardId : String) :
    ∀ (cis : List Checkitem) (b : AlbumState) (tr : List Req) (n : Nat),
      rtLoop okTrue cardId cis b tr n =
        (true,
         condBoardF resetCond "incomplete" cardId cis b,
         tr ++ condReqsF resetCond "incomplete" cardId cis,
         n + cis.countP resetCond) := by
  intro cis
  induction cis with
  | nil =>
    intro b tr n
    simp [rtLoop, condBoardF, condReqsF]
  | cons ci rest ih =>
    intro b tr n
    cases hc : resetCond ci with
    | true =>
      have hstep : rtLoop okTrue cardId (ci :: rest) b tr n =
          rtLoop okTrue cardId rest
            (applyReq b (Req.updateCheckitem cardId ci.id none
              (some "incomplete")))
            (tr ++ [Req.updateCheckitem cardId ci.id none (some "incomplete")])
            (n + 1) := by
        simp [rtLoop, hc, okTrue]
      rw [hstep, ih]
      simp only [Prod.mk.injEq, true_and]
      refine ⟨?_, ?_, ?_⟩
      · have hunf : condBoardF resetCond "incomplete" cardId (ci :: rest) b =
            condBoardF resetCond "incomplete" cardId rest
              (if resetCond ci then
                applyReq b (Req.updateCheckitem cardId ci.id none
                  (some "incomplete"))
              else b) := rfl
        rw [hunf, if_pos hc]
      · have hreq : condReqsF resetCond "incomplete" cardId (ci :: rest) =
            Req.updateCheckitem cardId ci.id none (some "incomplete") ::
              condReqsF resetCond "incomplete" cardId rest := by
          simp [condReqsF, hc]
        rw [hreq]
        simp
      · rw [List.countP_cons]
        simp [hc]
        omega
    | false =>
      have hstep : rtLoop okTrue cardId (ci :: rest) b tr n =
          rtLoop okTrue cardId rest b tr n := by
        simp [rtLoop, hc]
      rw [hstep, ih]
      simp only [Prod.mk.injEq, true_and]
      refine ⟨?_, ?_, ?_⟩
      · have hunf : condBoardF resetCond "incomplete" cardId (ci :: rest) b =
            condBoardF resetCond "incomplete" cardId rest
              (if resetCond ci then
                applyReq b (Req.updateCheckitem cardId ci.id none
                  (some "incomplete"))
              else b) := rfl
        rw [hunf, if_neg (by simp [hc])]
      · have hreq : condReqsF resetCond "incomplete" cardId (ci :: rest) =
            condReqsF resetCond "incomplete" cardId rest := by
          simp [condReqsF, hc]
        rw [hreq]
      · rw [List.countP_cons]
        simp [hc]

/-- Helper: effect of a successful card move. -/
theorem applyReq_move (b : AlbumState) (cid L : String)
    (hb : b.cardId = cid) :
    applyReq b (Req.moveCard cid L) = { b with idList := L } := by
  simp [applyReq, hb]

/-- Helper: effect of a successful linked-checkitem state update on the
artist card. -/
theorem applyReq_artist (b : AlbumState) (aid ciid v : String)
    (hb : aid ≠ b.cardId) (hart : b.artist_card_id = aid)
    (hcid : b.checkitem_id = ciid) :
    applyReq b (Req.updateCheckitem aid ciid none (some v)) =
      { b with checkitem_state := v } := by
  simp [applyReq, hart, hcid, hb]

/-- Helper: one non-fatal aggregate step under the all-successes
oracle. -/
theorem aggStep_okTrue (c : Bool) (r : Req) (b : AlbumState) (tr : List Req)
    (n : Nat) :
    aggStep okTrue c r b tr n =
      ((if c then applyReq b r else b), tr ++ (if c then [r] else []),
       n + (if c then 1 else 0)) := by
  cases c <;> simp [aggStep, okTrue]

/-- Helper: the trace of one aggregate step, for any oracle. -/
theorem aggStep_trace (ok : Nat → Bool) (c : Bool) (r : Req) (b : AlbumState)
    (tr : List Req) (n : Nat) :
    (aggStep ok c r b tr n).2.1 = tr ++ (if c then [r] else []) := by
  cases c <;> simp [aggStep]

/-- Helper: the aggregate phase of `complete_tasks` under the
all-successes oracle: if all tasks are complete the album ends on the
done list with the artist-card checkitem complete; if some but not all
are complete it ends on the doing list with the checkitem incomplete;
otherwise nothing is touched. -/
theorem ctAggregate_okTrue_eq (mgr : Mgr) (s0 : AlbumState)
    (tc : List (String × Bool)) (b : AlbumState) (tr : List Req) (n : Nat)
    (hb : b.cardId = s0.cardId) (hart : b.artist_card_id = s0.artist_card_id)
    (hcid : b.checkitem_id = s0.checkitem_id) (hidl : b.idList = s0.idList)
    (hcs : b.checkitem_state = s0.checkitem_state)
    (han : s0.artist_card_id ≠ s0.cardId) :
    (dictAll tc = true →
      ∃ tr2, ctAggregate okTrue mgr s0 tc b tr n =
        (true, { b with idList := mgr.albums_done_list_id, checkitem_state := "complete" }, tr ++ tr2)) ∧
    (dictAll tc = false → dictAny tc = true →
      ∃ tr2, ctAggregate okTrue mgr s0 tc b tr n =
        (false, { b with idList := mgr.albums_doing_list_id, checkitem_state := "incomplete" }, tr ++ tr2)) ∧
    (dictAll tc = false → dictAny tc = false →
      ctAggregate okTrue mgr s0 tc b tr n = (false, b, tr)) := by
  have hancard : s0.artist_card_id ≠ b.cardId := by
    rw [hb]
    exact han
  refine ⟨?_, ?_, ?_⟩
  · intro hall
    by_cases hmv : s0.idList = mgr.albums_done_list_id
    · have hmvb : (s0.idList != mgr.albums_done_list_id) = false := by
        simp [hmv]
      by_cases hup : s0.checkitem_state = "complete"
      · refine ⟨[], ?_⟩
        have hb2 : { b with idList := mgr.albums_done_list_id, checkitem_state := "complete" } = b := by
          rw [← hmv, ← hup, ← hidl, ← hcs]
        have hupb : (s0.checkitem_state != "complete") = false := by
          simp [hup]
        rw [hb2]
        simp [ctAggregate, hall, aggStep_okTrue, hmvb, hupb]
      · have hupb : (s0.checkitem_state != "complete") = true := by
          simp [hup]
        refine ⟨[Req.updateCheckitem s0.artist_card_id s0.checkitem_id none
          (some "complete")], ?_⟩
        have hb2 : { b with idList := mgr.albums_done_list_id, checkitem_state := "complete" } =
            { b with checkitem_state := "complete" } := by
          rw [← hmv, ← hidl]
        rw [hb2]
        simp [ctAggregate, hall, aggStep_okTrue, hmvb, hupb,
          applyReq_artist b s0.artist_card_id s0.checkitem_id "complete"
            hancard hart hcid]
    · have hmvb : (s0.idList != mgr.albums_done_list_id) = true := by
        simp [hmv]
      have hmove := applyReq_move b s0.cardId mgr.albums_done_list_id hb
      by_cases hup : s0.checkitem_state = "complete"
      · have hupb : (s0.checkitem_state != "complete") = false := by
          simp [hup]
        refine ⟨[Req.moveCard s0.cardId mgr.albums_done_list_id], ?_⟩
        have hb2 : { b with idList := mgr.albums_done_list_id, checkitem_state := "complete" } =
            { b with idList := mgr.albums_done_list_id } := by
          have : b.checkitem_state = "complete" := by rw [hcs, hup]
          rw [← this]
        rw [hb2]
        simp [ctAggregate, hall, aggStep_okTrue, hmvb, hupb, hmove]
      · have hupb : (s0.checkitem_state != "complete") = true := by
          simp [hup]
        refine ⟨[Req.moveCard s0.cardId mgr.albums_done_list_id,
          Req.updateCheckitem s0.artist_card_id s0.checkitem_id none
            (some "complete")], ?_⟩
        have hart2 : applyReq { b with idList := mgr.albums_done_list_id }
            (Req.updateCheckitem s0.artist_card_id s0.checkitem_id none
              (some "complete")) =
            { b with idList := mgr.albums_done_list_id, checkitem_state := "complete" } :=
          applyReq_artist _ _ _ _ hancard hart hcid
        simp [ctAggregate, hall, aggStep_okTrue, hmvb, hupb, hmove, hart2]
  · intro hall hany
    by_cases hmv : s0.idList = mgr.albums_doing_list_id
    · have hmvb : (s0.idList != mgr.albums_doing_list_id) = false := by
        simp [hmv]
      by_cases hup : s0.checkitem_state = "incomplete"
      · refine ⟨[], ?_⟩
        have hb2 : { b with idList := mgr.albums_doing_list_id, checkitem_state := "incomplete" } = b := by
          rw [← hmv, ← hup, ← hidl, ← hcs]
        have hupb : (s0.checkitem_state != "incomplete") = false := by
          simp [hup]
        rw [hb2]
        simp [ctAggregate, hall, hany, aggStep_okTrue, hmvb, hupb]
      · have hupb : (s0.checkitem_state != "incomplete") = true := by
          simp [hup]
        refine ⟨[Req.updateCheckitem s0.artist_card_id s0.checkitem_id none
          (some "incomplete")], ?_⟩
        have hb2 : { b with idList := mgr.albums_doing_list_id, checkitem_state := "incomplete" } =
            { b with checkitem_state := "incomplete" } := by
          rw [← hmv, ← hidl]
        rw [hb2]
        simp [ctAggregate, hall, hany, aggStep_okTrue, hmvb, hupb,
          applyReq_artist b s0.artist_card_id s0.checkitem_id "incomplete"
            hancard hart hcid]
    · have hmvb : (s0.idList != mgr.albums_doing_list_id) = true := by
        simp [hmv]
      have hmove := applyReq_move b s0.cardId mgr.albums_doing_list_id hb
      by_cases hup : s0.checkitem_state = "incomplete"
      · have hupb : (s0.checkitem_state != "incomplete") = false := by
          simp [hup]
        refine ⟨[Req.moveCard s0.cardId mgr.albums_doing_list_id], ?_⟩
        have hb2 : { b with idList := mgr.albums_doing_list_id, checkitem_state := "incomplete" } =
            { b with idList := mgr.albums_doing_list_id } := by
          have : b.checkitem_state = "incomplete" := by rw [hcs, hup]
          rw [← this]
        rw [hb2]
        simp [ctAggregate, hall, hany, aggStep_okTrue, hmvb, hupb, hmove]
      · have hupb : (s0.checkitem_state != "incomplete") = true := by
          simp [hup]
        refine ⟨[Req.moveCard s0.cardId mgr.albums_doing_list_id,
          Req.updateCheckitem s0.artist_card_id s0.checkitem_id none
            (some "incomplete")], ?_⟩
        have hart2 : applyReq { b with idList := mgr.albums_doing_list_id }
            (Req.updateCheckitem s0.artist_card_id s0.checkitem_id none
              (some "incomplete")) =
            { b with idList := mgr.albums_doing_list_id, checkitem_state := "incomplete" } :=
          applyReq_artist _ _ _ _ hancard hart hcid
        simp [ctAggregate, hall, hany, aggStep_okTrue, hmvb, hupb, hmove,
          hart2]
  · intro hall hany
    simp [ctAggregate, hall, hany]

/-- Helper: the tail of `reset_tasks` under the all-successes oracle
moves the card to the pending list and resets the linked checkitem. -/
theorem rtFinish_okTrue_eq (mgr : Mgr) (s0 : AlbumState) (b : AlbumState)
    (tr : List Req) (n : Nat)
    (hb : b.cardId = s0.cardId) (hart : b.artist_card_id = s0.artist_card_id)
    (hcid : b.checkitem_id = s0.checkitem_id) (hidl : b.idList = s0.idList)
    (hcs : b.checkitem_state = s0.checkitem_state)
    (han : s0.artist_card_id ≠ s0.cardId) :
    ∃ tr2, rtFinish okTrue mgr s0 b tr n =
      (true, { b with idList := mgr.albums_pending_list_id, checkitem_state := "incomplete" }, tr ++ tr2) := by
  have hancard : s0.artist_card_id ≠ b.cardId := by
    rw [hb]
    exact han
  by_cases hmv : s0.idList = mgr.albums_pending_list_id
  · have hmvb : (s0.idList != mgr.albums_pending_list_id) = false := by
      simp [hmv]
    by_cases hup : s0.checkitem_state = "incomplete"
    · refine ⟨[], ?_⟩
      have hb2 : { b with idList := mgr.albums_pending_list_id, checkitem_state := "incomplete" } = b := by
        rw [← hmv, ← hup, ← hidl, ← hcs]
      have hupb : (s0.checkitem_state != "incomplete") = false := by
        simp [hup]
      rw [hb2]
      simp [rtFinish, rtFinish2, hmvb, hupb]
    · have hupb : (s0.checkitem_state != "incomplete") = true := by
        simp [hup]
      refine ⟨[Req.updateCheckitem s0.artist_card_id s0.checkitem_id none
        (some "incomplete")], ?_⟩
      have hb2 : { b with idList := mgr.albums_pending_list_id, checkitem_state := "incomplete" } =
          { b with checkitem_state := "incomplete" } := by
        rw [← hmv, ← hidl]
      rw [hb2]
      simp [rtFinish, rtFinish2, hmvb, hupb, okTrue,
        applyReq_artist b s0.artist_card_id s0.checkitem_id "incomplete"
          hancard hart hcid]
  · have hmvb : (s0.idList != mgr.albums_pending_list_id) = true := by
      simp [hmv]
    have hmove := applyReq_move b s0.cardId mgr.albums_pending_list_id hb
    by_cases hup : s0.checkitem_state = "incomplete"
    · have hupb : (s0.checkitem_state != "incomplete") = false := by
        simp [hup]
      refine ⟨[Req.moveCard s0.cardId mgr.albums_pending_list_id], ?_⟩
      have hb2 : { b with idList := mgr.albums_pending_list_id, checkitem_state := "incomplete" } =
          { b with idList := mgr.albums_pending_list_id } := by
        have : b.checkitem_state = "incomplete" := by rw [hcs, hup]
        rw [← this]
      rw [hb2]
      simp [rtFinish, rtFinish2, hmvb, hupb, okTrue, hmove]
    · have hupb : (s0.checkitem_state != "incomplete") = true := by
        simp [hup]
      refine ⟨[Req.moveCard s0.cardId mgr.albums_pending_list_id,
        Req.updateCheckitem s0.artist_card_id s0.checkitem_id none
          (some "incomplete")], ?_⟩
      have hart2 : applyReq { b with idList := mgr.albums_pending_list_id }
          (Req.updateCheckitem s0.artist_card_id s0.checkitem_id none
            (some "incomplete")) =
          { b with idList := mgr.albums_pending_list_id, checkitem_state := "incomplete" } :=
        applyReq_artist _ _ _ _ hancard hart hcid
      simp [rtFinish, rtFinish2, hmvb, hupb, okTrue, hmove, hart2]

/-- Helper: a well-formed Tasks checklist consists of exactly four
checkitems carrying the four fixed names in order. -/
theorem taskItems_shape (l : List Checkitem)
    (h : l.map Checkitem.name = album_tasks) :
    ∃ a b c d, l = [a, b, c, d] ∧ a.name = "Download" ∧
      b.name = "Add metadata" ∧ c.name = "Transfer to phone" ∧
      d.name = "Listen" := by
  cases l with
  | nil => simp [album_tasks] at h
  | cons a l1 =>
    cases l1 with
    | nil => simp [album_tasks] at h
    | cons b l2 =>
      cases l2 with
      | nil => simp [album_tasks] at h
      | cons c l3 =>
        cases l3 with
        | nil => simp [album_tasks] at h
        | cons d l4 =>
          cases l4 with
          | cons e l5 => simp [album_tasks] at h
          | nil =>
            simp [album_tasks] at h
            exact ⟨a, b, c, d, rfl, h.1, h.2.1, h.2.2.1, h.2.2.2⟩

/-- Helper: a fully successful `complete_tasks_go` run (nonempty
validated request) leaves the dual-state triple consistent. -/
theorem complete_tasks_go_okTrue_triple :
    ∀ (mgr : Mgr) (found tcF : Bool) (s0 : AlbumState) (T : List String)
      (rep : CTReport) (s1 : AlbumState) (tr : List Req),
      WFMgr mgr → WFAlbum s0 → T ≠ [] →
      complete_tasks_go okTrue mgr found tcF s0 T = (some rep, s1, tr) →
      StateTripleConsistent mgr s1 := by
  intro mgr found tcF s0 T rep s1 tr hmgr hwf hTne hrun
  obtain ⟨hname, hnd, han⟩ := hwf
  obtain ⟨hpd, hpf, hdf⟩ := hmgr
  cases hval : T.any (fun t => !(album_tasks.contains t)) with
  | true =>
    unfold complete_tasks_go at hrun
    rw [if_pos hval] at hrun
    simp at hrun
  | false =>
  cases hfound : found with
  | false =>
    rw [hfound] at hrun
    unfold complete_tasks_go at hrun
    rw [if_neg (by rw [hval]; exact Bool.false_ne_true),
      if_pos (by simp)] at hrun
    simp at hrun
  | true =>
  cases htcf : tcF with
  | false =>
    rw [hfound, htcf] at hrun
    unfold complete_tasks_go at hrun
    rw [if_neg (by rw [hval]; exact Bool.false_ne_true), if_neg (by simp),
      if_pos (by simp)] at hrun
    simp at hrun
  | true =>
  rw [hfound, htcf] at hrun
  obtain ⟨a, b, c, d, hitems, hna, hnb, hnc, hnd2⟩ := taskItems_shape _ hname
  have hemp : s0.taskItems.isEmpty = false := by rw [hitems]; rfl
  simp only [complete_tasks_go, hval, hemp, Bool.not_true, Bool.not_false,
    Bool.false_eq_true, if_false, ite_false, ite_true, if_true,
    ctLoop_okTrue_eq, List.nil_append, Nat.zero_add] at hrun
  have hvalid : ∀ t ∈ T, t ∈ album_tasks := by
    intro t ht
    have := List.any_eq_false.mp hval t ht
    simpa using this
  -- the loop's board, rewritten to the positional map form
  have hbv := condBoardF_eq (taskCond T) "complete" s0.cardId s0.taskItems s0
    rfl
  have hGa : s0.taskItems.any
      (fun ci => taskCond T ci && ci.id == a.id) = taskCond T a :=
    any_cond_id_eq _ _ hnd a (by rw [hitems]; simp)
  have hGb : s0.taskItems.any
      (fun ci => taskCond T ci && ci.id == b.id) = taskCond T b :=
    any_cond_id_eq _ _ hnd b (by rw [hitems]; simp)
  have hGc : s0.taskItems.any
      (fun ci => taskCond T ci && ci.id == c.id) = taskCond T c :=
    any_cond_id_eq _ _ hnd c (by rw [hitems]; simp)
  have hGd : s0.taskItems.any
      (fun ci => taskCond T ci && ci.id == d.id) = taskCond T d :=
    any_cond_id_eq _ _ hnd d (by rw [hitems]; simp)
  have hM : (condBoardF (taskCond T) "complete" s0.cardId s0.taskItems
      s0).taskItems =
      [if taskCond T a then ⟨a.id, a.name, "complete"⟩ else a,
       if taskCond T b then ⟨b.id, b.name, "complete"⟩ else b,
       if taskCond T c then ⟨c.id, c.name, "complete"⟩ else c,
       if taskCond T d then ⟨d.id, d.name, "complete"⟩ else d] := by
    rw [hbv]
    show List.map _ s0.taskItems = _
    rw [hitems] at hGa hGb hGc hGd ⊢
    simp only [List.map_cons, List.map_nil, hGa, hGb, hGc, hGd]
  have hfields :
      (condBoardF (taskCond T) "complete" s0.cardId s0.taskItems s0).cardId
          = s0.cardId ∧
      (condBoardF (taskCond T) "complete" s0.cardId s0.taskItems
          s0).artist_card_id = s0.artist_card_id ∧
      (condBoardF (taskCond T) "complete" s0.cardId s0.taskItems
          s0).checkitem_id = s0.checkitem_id ∧
      (condBoardF (taskCond T) "complete" s0.cardId s0.taskItems s0).idList
          = s0.idList ∧
      (condBoardF (taskCond T) "complete" s0.cardId s0.taskItems
          s0).checkitem_state = s0.checkitem_state := by
    rw [hbv]
    exact ⟨rfl, rfl, rfl, rfl, rfl⟩
  -- the completion dict
  have htc : ctAccF T s0.taskItems (album_tasks.map (fun t => (t, false))) =
      [("Download", a.state == "complete" || T.contains "Download"),
       ("Add metadata", b.state == "complete" || T.contains "Add metadata"),
       ("Transfer to phone",
         c.state == "complete" || T.contains "Transfer to phone"),
       ("Listen", d.state == "complete" || T.contains "Listen")] := by
    rw [hitems]
    simp [ctAccF, dictSet, album_tasks, hna, hnb, hnc, hnd2]
  -- dictAll/dictAny agree with the aggregate state of the final items
  have hallEq : dictAll (ctAccF T s0.taskItems
      (album_tasks.map (fun t => (t, false)))) =
      ((a.state == "complete" || T.contains "Download") &&
       ((b.state == "complete" || T.contains "Add metadata") &&
        ((c.state == "complete" || T.contains "Transfer to phone") &&
         (d.state == "complete" || T.contains "Listen")))) := by
    rw [htc]
    simp [dictAll]
  have hanyEq : dictAny (ctAccF T s0.taskItems
      (album_tasks.map (fun t => (t, false)))) =
      ((a.state == "complete" || T.contains "Download") ||
       ((b.state == "complete" || T.contains "Add metadata") ||
        ((c.state == "complete" || T.contains "Transfer to phone") ||
         (d.state == "complete" || T.contains "Listen")))) := by
    rw [htc]
    simp [dictAny]
  have hanyT : dictAny (ctAccF T s0.taskItems
      (album_tasks.map (fun t => (t, false)))) = true := by
    rw [hanyEq]
    cases T with
    | nil => exact absurd rfl hTne
    | cons t0 T2 =>
      have ht0 : t0 ∈ album_tasks := hvalid t0 (by simp)
      rcases (by simpa [album_tasks] using ht0 :
          t0 = "Download" ∨ t0 = "Add metadata" ∨
          t0 = "Transfer to phone" ∨ t0 = "Listen") with h | h | h | h <;>
        simp [h]
  obtain ⟨hfcard, hfart, hfcid, hfidl, hfcs⟩ := hfields
  cases hall : dictAll (ctAccF T s0.taskItems
      (album_tasks.map (fun t => (t, false)))) with
  | true =>
    obtain ⟨tr2, hagg⟩ := (ctAggregate_okTrue_eq mgr s0
      (ctAccF T s0.taskItems (album_tasks.map (fun t => (t, false))))
      (condBoardF (taskCond T) "complete" s0.cardId s0.taskItems s0)
      (condReqsF (taskCond T) "complete" s0.cardId s0.taskItems)
      (s0.taskItems.countP (taskCond T))
      hfcard hfart hfcid hfidl hfcs han).1 hall
    rw [hagg] at hrun
    simp only [Prod.mk.injEq, Option.some.injEq, CTReport.mk.injEq] at hrun
    obtain ⟨_, hs1, _⟩ := hrun
    have hid : s1.idList = mgr.albums_done_list_id := by rw [← hs1]
    have hcs1 : s1.checkitem_state = "complete" := by rw [← hs1]
    have htask : s1.taskItems =
        [if taskCond T a then ⟨a.id, a.name, "complete"⟩ else a,
         if taskCond T b then ⟨b.id, b.name, "complete"⟩ else b,
         if taskCond T c then ⟨c.id, c.name, "complete"⟩ else c,
         if taskCond T d then ⟨d.id, d.name, "complete"⟩ else d] := by
      rw [← hs1]
      exact hM
    have hallc : allTasksComplete s1 = true := by
      unfold allTasksComplete
      rw [htask]
      simp only [List.all_cons, List.all_nil, Bool.and_true]
      rw [ifCond_state_complete, ifCond_state_complete,
        ifCond_state_complete, ifCond_state_complete, hna, hnb, hnc, hnd2]
      exact hallEq.symm.trans hall
    have hanyc : anyTaskComplete s1 = true := by
      unfold anyTaskComplete
      rw [htask]
      simp only [List.any_cons, List.any_nil, Bool.or_false]
      rw [ifCond_state_complete, ifCond_state_complete,
        ifCond_state_complete, ifCond_state_complete, hna, hnb, hnc, hnd2]
      exact hanyEq.symm.trans hanyT
    refine ⟨?_, ?_, ?_⟩
    · simp [hid, hcs1, hallc]
    · simp [hid, hcs1, hallc, hanyc]
    · simp [hid, hcs1, hanyc]
  | false =>
    obtain ⟨tr2, hagg⟩ := (ctAggregate_okTrue_eq mgr s0
      (ctAccF T s0.taskItems (album_tasks.map (fun t => (t, false))))
      (condBoardF (taskCond T) "complete" s0.cardId s0.taskItems s0)
      (condReqsF (taskCond T) "complete" s0.cardId s0.taskItems)
      (s0.taskItems.countP (taskCond T))
      hfcard hfart hfcid hfidl hfcs han).2.1 hall hanyT
    rw [hagg] at hrun
    simp only [Prod.mk.injEq, Option.some.injEq, CTReport.mk.injEq] at hrun
    obtain ⟨_, hs1, _⟩ := hrun
    have hid : s1.idList = mgr.albums_doing_list_id := by rw [← hs1]
    have hcs1 : s1.checkitem_state = "incomplete" := by rw [← hs1]
    have htask : s1.taskItems =
        [if taskCond T a then ⟨a.id, a.name, "complete"⟩ else a,
         if taskCond T b then ⟨b.id, b.name, "complete"⟩ else b,
         if taskCond T c then ⟨c.id, c.name, "complete"⟩ else c,
         if taskCond T d then ⟨d.id, d.name, "complete"⟩ else d] := by
      rw [← hs1]
      exact hM
    have hallc : allTasksComplete s1 = false := by
      unfold allTasksComplete
      rw [htask]
      simp only [List.all_cons, List.all_nil, Bool.and_true]
      rw [ifCond_state_complete, ifCond_state_complete,
        ifCond_state_complete, ifCond_state_complete, hna, hnb, hnc, hnd2]
      exact hallEq.symm.trans hall
    have hanyc : anyTaskComplete s1 = true := by
      unfold anyTaskComplete
      rw [htask]
      simp only [List.any_cons, List.any_nil, Bool.or_false]
      rw [ifCond_state_complete, ifCond_state_complete,
        ifCond_state_complete, ifCond_state_complete, hna, hnb, hnc, hnd2]
      exact hanyEq.symm.trans hanyT
    refine ⟨?_, ?_, ?_⟩
    · simp [hid, hcs1, hallc]
    · simp [hid, hcs1, hallc, hanyc]
    · simp [hid, hcs1, hanyc, Ne.symm hpd]

/-- Helper: a fully successful `reset_tasks` run leaves the dual-state
triple consistent. -/
theorem reset_tasks_okTrue_triple :
    ∀ (mgr : Mgr) (found tcF : Bool) (s0 : AlbumState) (s1 : AlbumState)
      (tr : List Req),
      WFMgr mgr → WFAlbum s0 →
      reset_tasks okTrue mgr found tcF s0 = (true, s1, tr) →
      StateTripleConsistent mgr s1 := by
  intro mgr found tcF s0 s1 tr hmgr hwf hrun
  obtain ⟨hname, hnd, han⟩ := hwf
  obtain ⟨hpd, hpf, hdf⟩ := hmgr
  cases hfound : found with
  | false => rw [hfound] at hrun; simp [reset_tasks] at hrun
  | true =>
  cases htcf : tcF with
  | false => rw [hfound, htcf] at hrun; simp [reset_tasks] at hrun
  | true =>
  rw [hfound, htcf] at hrun
  obtain ⟨a, b, c, d, hitems, hna, hnb, hnc, hnd2⟩ := taskItems_shape _ hname
  have hemp : s0.taskItems.isEmpty = false := by rw [hitems]; rfl
  simp only [reset_tasks, hemp, Bool.not_true, Bool.not_false,
    Bool.false_eq_true, if_false, ite_false, ite_true, if_true,
    rtLoop_okTrue_eq, List.nil_append, Nat.zero_add] at hrun
  have hbv := condBoardF_eq resetCond "incomplete" s0.cardId s0.taskItems s0
    rfl
  have hfcard : (condBoardF resetCond "incomplete" s0.cardId s0.taskItems
      s0).cardId = s0.cardId := by rw [hbv]
  have hfart : (condBoardF resetCond "incomplete" s0.cardId s0.taskItems
      s0).artist_card_id = s0.artist_card_id := by rw [hbv]
  have hfcid : (condBoardF resetCond "incomplete" s0.cardId s0.taskItems
      s0).checkitem_id = s0.checkitem_id := by rw [hbv]
  have hfidl : (condBoardF resetCond "incomplete" s0.cardId s0.taskItems
      s0).idList = s0.idList := by rw [hbv]
  have hfcs : (condBoardF resetCond "incomplete" s0.cardId s0.taskItems
      s0).checkitem_state = s0.checkitem_state := by rw [hbv]
  obtain ⟨tr2, hfin⟩ := rtFinish_okTrue_eq mgr s0
    (condBoardF resetCond "incomplete" s0.cardId s0.taskItems s0)
    (condReqsF resetCond "incomplete" s0.cardId s0.taskItems)
    (s0.taskItems.countP resetCond)
    hfcard hfart hfcid hfidl hfcs han
  rw [hfin] at hrun
  simp only [Prod.mk.injEq, true_and] at hrun
  obtain ⟨hs1, _⟩ := hrun
  have hGa : s0.taskItems.any
      (fun ci => resetCond ci && ci.id == a.id) = resetCond a :=
    any_cond_id_eq _ _ hnd a (by rw [hitems]; simp)
  have hGb : s0.taskItems.any
      (fun ci => resetCond ci && ci.id == b.id) = resetCond b :=
    any_cond_id_eq _ _ hnd b (by rw [hitems]; simp)
  have hGc : s0.taskItems.any
      (fun ci => resetCond ci && ci.id == c.id) = resetCond c :=
    any_cond_id_eq _ _ hnd c (by rw [hitems]; simp)
  have hGd : s0.taskItems.any
      (fun ci => resetCond ci && ci.id == d.id) = resetCond d :=
    any_cond_id_eq _ _ hnd d (by rw [hitems]; simp)
  have hM : (condBoardF resetCond "incomplete" s0.cardId s0.taskItems
      s0).taskItems =
      [if resetCond a then ⟨a.id, a.name, "incomplete"⟩ else a,
       if resetCond b then ⟨b.id, b.name, "incomplete"⟩ else b,
       if resetCond c then ⟨c.id, c.name, "incomplete"⟩ else c,
       if resetCond d then ⟨d.id, d.name, "incomplete"⟩ else d] := by
    rw [hbv]
    show List.map _ s0.taskItems = _
    rw [hitems] at hGa hGb hGc hGd ⊢
    simp only [List.map_cons, List.map_nil, hGa, hGb, hGc, hGd]
  have hid : s1.idList = mgr.albums_pending_list_id := by rw [← hs1]
  have hcs1 : s1.checkitem_state = "incomplete" := by rw [← hs1]
  have htask : s1.taskItems =
      [if resetCond a then ⟨a.id, a.name, "incomplete"⟩ else a,
       if resetCond b then ⟨b.id, b.name, "incomplete"⟩ else b,
       if resetCond c then ⟨c.id, c.name, "incomplete"⟩ else c,
       if resetCond d then ⟨d.id, d.name, "incomplete"⟩ else d] := by
    rw [← hs1]
    exact hM
  have hca : album_tasks.contains a.name = true := by rw [hna]; rfl
  have hcb : album_tasks.contains b.name = true := by rw [hnb]; rfl
  have hcc : album_tasks.contains c.name = true := by rw [hnc]; rfl
  have hcd : album_tasks.contains d.name = true := by rw [hnd2]; rfl
  have hanyc : anyTaskComplete s1 = false := by
    unfold anyTaskComplete
    rw [htask]
    simp only [List.any_cons, List.any_nil, Bool.or_false]
    rw [ifReset_state_complete a hca, ifReset_state_complete b hcb,
      ifReset_state_complete c hcc, ifReset_state_complete d hcd]
    rfl
  have hallc : allTasksComplete s1 = false := by
    unfold allTasksComplete
    rw [htask]
    simp only [List.all_cons, List.all_nil, Bool.and_true]
    rw [ifReset_state_complete a hca]
    rfl
  refine ⟨?_, ?_, ?_⟩
  · simp [hid, hcs1, hallc]
  · simp [hid, hcs1, hanyc, hpd]
  · simp [hid, hcs1, hanyc]

/-- C1: after a `complete_tasks` or `reset_tasks` call in which every
remote update and move succeeds, the album's dual-state triple is
consistent: its card's list is albums_done and the artist-card
checkitem complete iff all four task checkitems are complete, the list
is albums_doing with the checkitem incomplete iff some but not all are
complete, and the list is albums_pending with the checkitem incomplete
iff none is complete. -/
theorem state_triple_consistency :
    (∀ (mgr : Mgr) (found tcFound : Bool) (s0 : AlbumState)
        (tasks : List String) (rep : CTReport) (s1 : AlbumState)
        (tr : List Req),
      WFMgr mgr → WFAlbum s0 →
      complete_tasks okTrue mgr found tcFound s0 tasks = (some rep, s1, tr) →
      StateTripleConsistent mgr s1) ∧
    (∀ (mgr : Mgr) (found tcFound : Bool) (s0 : AlbumState)
        (s1 : AlbumState) (tr : List Req),
      WFMgr mgr → WFAlbum s0 →
      reset_tasks okTrue mgr found tcFound s0 = (true, s1, tr) →
      StateTripleConsistent mgr s1) := by
  constructor
  · intro mgr found tcFound s0 tasks rep s1 tr hmgr hwf hrun
    cases he : tasks.isEmpty with
    | true =>
      rw [complete_tasks, if_pos he] at hrun
      exact complete_tasks_go_okTrue_triple mgr found tcFound s0 album_tasks
        rep s1 tr hmgr hwf (by decide) hrun
    | false =>
      rw [complete_tasks, if_neg (by rw [he]; exact Bool.false_ne_true)]
        at hrun
      have hne : tasks ≠ [] := by
        cases tasks with
        | nil => cases he
        | cons t ts => exact List.cons_ne_nil t ts
      exact complete_tasks_go_okTrue_triple mgr found tcFound s0 tasks
        rep s1 tr hmgr hwf hne hrun
  · exact reset_tasks_okTrue_triple

/-- Witness for C1: a concrete fully successful `complete_tasks` run
(empty request = all four tasks) ending with all tasks complete, the
card on the done list, and the artist-card checkitem complete. -/
theorem state_triple_consistency_witness :
    StateTripleConsistent ⟨"P", "D", "F"⟩
      ⟨"c", "F",
       [⟨"t1", "Download", "complete"⟩, ⟨"t2", "Add metadata", "complete"⟩,
        ⟨"t3", "Transfer to phone", "complete"⟩,
        ⟨"t4", "Listen", "complete"⟩],
       "a", "x", "complete"⟩ :=
  state_triple_consistency.1 ⟨"P", "D", "F"⟩ true true
    ⟨"c", "P",
     [⟨"t1", "Download", "incomplete"⟩, ⟨"t2", "Add metadata", "incomplete"⟩,
      ⟨"t3", "Transfer to phone", "incomplete"⟩,
      ⟨"t4", "Listen", "complete"⟩],
     "a", "x", "incomplete"⟩ []
    ⟨true, [("Download", true), ("Add metadata", true),
      ("Transfer to phone", true), ("Listen", true)]⟩
    ⟨"c", "F",
     [⟨"t1", "Download", "complete"⟩, ⟨"t2", "Add metadata", "complete"⟩,
      ⟨"t3", "Transfer to phone", "complete"⟩, ⟨"t4", "Listen", "complete"⟩],
     "a", "x", "complete"⟩
    [Req.updateCheckitem "c" "t1" none (some "complete"),
     Req.updateCheckitem "c" "t2" none (some "complete"),
     Req.updateCheckitem "c" "t3" none (some "complete"),
     Req.moveCard "c" "F",
     Req.updateCheckitem "a" "x" none (some "complete")]
    (by unfold WFMgr; decide) (by unfold WFAlbum; decide) (by decide)

/-- Helper: every request the `complete_tasks` loop appends is a
complete-marking update for some processed, not-yet-complete requested
checkitem. -/
theorem ctLoop_trace_mem (ok : Nat → Bool) (cardId : String)
    (tasks : List String) :
    ∀ (cis : List Checkitem) (acc : List (String × Bool)) (b : AlbumState)
      (tr : List Req) (n : Nat) (r : Req),
      r ∈ (ctLoop ok cardId tasks cis acc b tr n).2.2.1 →
      r ∈ tr ∨ ∃ ci ∈ cis, taskCond tasks ci = true ∧
        r = Req.updateCheckitem cardId ci.id none (some "complete") := by
  intro cis
  induction cis with
  | nil =>
    intro acc b tr n r hr
    exact Or.inl hr
  | cons ci rest ih =>
    intro acc b tr n r hr
    cases hc : taskCond tasks ci with
    | true =>
      rw [ctLoop, if_pos hc] at hr
      cases ho : ok n with
      | true =>
        rw [ho] at hr
        simp only [ite_true, if_true] at hr
        rcases ih _ _ _ _ r hr with hmem | ⟨ci2, hci2, hcond2, hform⟩
        · rcases List.mem_append.mp hmem with h | h
          · exact Or.inl h
          · refine Or.inr ⟨ci, by simp, hc, ?_⟩
            simpa using h
        · exact Or.inr ⟨ci2, by simp [hci2], hcond2, hform⟩
      | false =>
        rw [ho] at hr
        simp only [Bool.false_eq_true, if_false, ite_false] at hr
        rcases List.mem_append.mp hr with h | h
        · exact Or.inl h
        · refine Or.inr ⟨ci, by simp, hc, ?_⟩
          simpa using h
    | false =>
      rw [ctLoop, if_neg (by rw [hc]; exact Bool.false_ne_true)] at hr
      rcases ih _ _ _ _ r hr with hmem | ⟨ci2, hci2, hcond2, hform⟩
      · exact Or.inl hmem
      · exact Or.inr ⟨ci2, by simp [hci2], hcond2, hform⟩

/-- Helper: every request the aggregate phase appends is either a card
move of the album card or a state update of the linked checkitem on the
artist card. -/
theorem ctAggregate_trace_mem (ok : Nat → Bool) (mgr : Mgr)
    (s0 : AlbumState) (tc : List (String × Bool)) (b : AlbumState)
    (tr : List Req) (n : Nat) (r : Req)
    (hr : r ∈ (ctAggregate ok mgr s0 tc b tr n).2.2) :
    r ∈ tr ∨ (∃ l, r = Req.moveCard s0.cardId l) ∨
      (∃ stv, r = Req.updateCheckitem s0.artist_card_id s0.checkitem_id none
        (some stv)) := by
  unfold ctAggregate at hr
  cases hall : dictAll tc with
  | true =>
    rw [hall] at hr
    simp only [ite_true, if_true] at hr
    rw [aggStep_trace, aggStep_trace] at hr
    rcases List.mem_append.mp hr with hr1 | hr2
    · rcases List.mem_append.mp hr1 with hr3 | hr4
      · exact Or.inl hr3
      · by_cases hcnd : (s0.idList != mgr.albums_done_list_id) = true
        · rw [if_pos hcnd] at hr4
          refine Or.inr (Or.inl ⟨mgr.albums_done_list_id, ?_⟩)
          simpa using hr4
        · rw [if_neg hcnd] at hr4
          cases hr4
    · by_cases hcnd : (s0.checkitem_state != "complete") = true
      · rw [if_pos hcnd] at hr2
        refine Or.inr (Or.inr ⟨"complete", ?_⟩)
        simpa using hr2
      · rw [if_neg hcnd] at hr2
        cases hr2
  | false =>
    rw [hall] at hr
    simp only [Bool.false_eq_true, if_false, ite_false] at hr
    cases hany : dictAny tc with
    | true =>
      rw [hany] at hr
      simp only [ite_true, if_true] at hr
      rw [aggStep_trace, aggStep_trace] at hr
      rcases List.mem_append.mp hr with hr1 | hr2
      · rcases List.mem_append.mp hr1 with hr3 | hr4
        · exact Or.inl hr3
        · by_cases hcnd : (s0.idList != mgr.albums_doing_list_id) = true
          · rw [if_pos hcnd] at hr4
            refine Or.inr (Or.inl ⟨mgr.albums_doing_list_id, ?_⟩)
            simpa using hr4
          · rw [if_neg hcnd] at hr4
            cases hr4
      · by_cases hcnd : (s0.checkitem_state != "incomplete") = true
        · rw [if_pos hcnd] at hr2
          refine Or.inr (Or.inr ⟨"incomplete", ?_⟩)
          simpa using hr2
        · rw [if_neg hcnd] at hr2
          cases hr2
    | false =>
      rw [hany] at hr
      simp only [Bool.false_eq_true, if_false, ite_false] at hr
      exact Or.inl hr

/-- Helper: when no processed checkitem needs an update, the
`complete_tasks` loop issues nothing and leaves the board untouched. -/
theorem ctLoop_no_cond (ok : Nat → Bool) (cardId : String)
    (tasks : List String) :
    ∀ (cis : List Checkitem) (acc : List (String × Bool)) (b : AlbumState)
      (tr : List Req) (n : Nat),
      (∀ ci ∈ cis, taskCond tasks ci = false) →
      ∃ acc2, ctLoop ok cardId tasks cis acc b tr n = (some acc2, b, tr, n) := by
  intro cis
  induction cis with
  | nil =>
    intro acc b tr n _
    exact ⟨acc, rfl⟩
  | cons ci rest ih =>
    intro acc b tr n hnone
    have hc : taskCond tasks ci = false := hnone ci (by simp)
    rw [ctLoop, if_neg (by rw [hc]; exact Bool.false_ne_true)]
    exact ih _ _ _ _ (fun ci2 hci2 => hnone ci2 (by simp [hci2]))

/-- Helper: every request `complete_tasks_go` issues is a
complete-marking update of a not-yet-complete task checkitem, a card
move of the album card, or a state update of the linked artist-card
checkitem. -/
theorem complete_tasks_go_trace_shape (ok : Nat → Bool) (mgr : Mgr)
    (found tcFound : Bool) (s0 : AlbumState) (T : List String) (r : Req)
    (hr : r ∈ (complete_tasks_go ok mgr found tcFound s0 T).2.2) :
    (∃ ci ∈ s0.taskItems, (ci.state == "complete") = false ∧
      r = Req.updateCheckitem s0.cardId ci.id none (some "complete")) ∨
    (∃ l, r = Req.moveCard s0.cardId l) ∨
    (∃ stv, r = Req.updateCheckitem s0.artist_card_id s0.checkitem_id none
      (some stv)) := by
  unfold complete_tasks_go at hr
  by_cases hval : (T.any (fun t => !(album_tasks.contains t))) = true
  · rw [if_pos hval] at hr
    cases hr
  · rw [if_neg hval] at hr
    by_cases hfound : (!found) = true
    · rw [if_pos hfound] at hr
      cases hr
    · rw [if_neg hfound] at hr
      by_cases htcf : (!tcFound) = true
      · rw [if_pos htcf] at hr
        cases hr
      · rw [if_neg htcf] at hr
        by_cases hemp : s0.taskItems.isEmpty = true
        · rw [if_pos hemp] at hr
          cases hr
        · rw [if_neg hemp] at hr
          have hcond : ∀ ci ∈ s0.taskItems, taskCond T ci = true →
              (ci.state == "complete") = false := by
            intro ci _ hct
            cases hcc : ci.state == "complete" with
            | false => rfl
            | true =>
              exfalso
              have : taskCond T ci = false := by
                unfold taskCond
                rw [hcc]
                simp
              rw [this] at hct
              exact Bool.noConfusion hct
          rcases hloop : ctLoop ok s0.cardId T s0.taskItems
              (album_tasks.map (fun t => (t, false))) s0 [] 0 with
            ⟨res, b2, tr2, n2⟩
          have htr2 : ∀ r2 ∈ tr2,
              (∃ ci ∈ s0.taskItems, (ci.state == "complete") = false ∧
                r2 = Req.updateCheckitem s0.cardId ci.id none
                  (some "complete")) := by
            intro r2 hr2
            have := ctLoop_trace_mem ok s0.cardId T s0.taskItems
              (album_tasks.map (fun t => (t, false))) s0 [] 0 r2
              (by rw [hloop]; exact hr2)
            rcases this with h | ⟨ci, hci, hct, hform⟩
            · cases h
            · exact ⟨ci, hci, hcond ci hci hct, hform⟩
          rw [hloop] at hr
          cases res with
          | none =>
            simp only at hr
            exact Or.inl (htr2 r hr)
          | some tc =>
            simp only at hr
            rcases ctAggregate_trace_mem ok mgr s0 tc b2 tr2 n2 r hr with
              h | h | h
            · exact Or.inl (htr2 r h)
            · exact Or.inr (Or.inl h)
            · exact Or.inr (Or.inr h)

/-- Helper: trace shape of `complete_tasks` (either branch of the
empty-request substitution). -/
theorem complete_tasks_trace_shape (ok : Nat → Bool) (mgr : Mgr)
    (found tcFound : Bool) (s0 : AlbumState) (tasks : List String) (r : Req)
    (hr : r ∈ (complete_tasks ok mgr found tcFound s0 tasks).2.2) :
    (∃ ci ∈ s0.taskItems, (ci.state == "complete") = false ∧
      r = Req.updateCheckitem s0.cardId ci.id none (some "complete")) ∨
    (∃ l, r = Req.moveCard s0.cardId l) ∨
    (∃ stv, r = Req.updateCheckitem s0.artist_card_id s0.checkitem_id none
      (some stv)) := by
  unfold complete_tasks at hr
  by_cases he : tasks.isEmpty = true
  · rw [if_pos he] at hr
    exact complete_tasks_go_trace_shape ok mgr found tcFound s0 album_tasks
      r hr
  · rw [if_neg he] at hr
    exact complete_tasks_go_trace_shape ok mgr found tcFound s0 tasks r hr

/-- Helper: a successful `complete_tasks_go` run under the
all-successes oracle: the guards passed, the card identities are
unchanged, and the final task checkitems are the snapshot ones with
every requested, not-yet-complete one forced complete. -/
theorem complete_tasks_go_okTrue_fields (mgr : Mgr) (found tcFound : Bool)
    (s0 : AlbumState) (T : List String) (rep : CTReport) (s1 : AlbumState)
    (tr1 : List Req) (han : s0.artist_card_id ≠ s0.cardId)
    (hrun : complete_tasks_go okTrue mgr found tcFound s0 T =
      (some rep, s1, tr1)) :
    found = true ∧ tcFound = true ∧
    (T.any (fun t => !(album_tasks.contains t))) = false ∧
    s0.taskItems ≠ [] ∧
    s1.cardId = s0.cardId ∧ s1.artist_card_id = s0.artist_card_id ∧
    s1.checkitem_id = s0.checkitem_id ∧
    s1.taskItems = s0.taskItems.map (fun x =>
      if s0.taskItems.any (fun ci => taskCond T ci && ci.id == x.id) then
        ⟨x.id, x.name, "complete"⟩
      else x) := by
  cases hval : T.any (fun t => !(album_tasks.contains t)) with
  | true =>
    unfold complete_tasks_go at hrun
    rw [if_pos hval] at hrun
    simp at hrun
  | false =>
  cases hfound : found with
  | false =>
    rw [hfound] at hrun
    unfold complete_tasks_go at hrun
    rw [if_neg (by rw [hval]; exact Bool.false_ne_true),
      if_pos (by simp)] at hrun
    simp at hrun
  | true =>
  cases htcf : tcFound with
  | false =>
    rw [hfound, htcf] at hrun
    unfold complete_tasks_go at hrun
    rw [if_neg (by rw [hval]; exact Bool.false_ne_true), if_neg (by simp),
      if_pos (by simp)] at hrun
    simp at hrun
  | true =>
  rw [hfound, htcf] at hrun
  cases hemp : s0.taskItems.isEmpty with
  | true =>
    unfold complete_tasks_go at hrun
    rw [if_neg (by rw [hval]; exact Bool.false_ne_true), if_neg (by simp),
      if_neg (by simp), if_pos (by rw [hemp])] at hrun
    simp at hrun
  | false =>
  have hne : s0.taskItems ≠ [] := by
    cases hq : s0.taskItems with
    | nil => rw [hq] at hemp; cases hemp
    | cons x l => exact List.cons_ne_nil x l
  simp only [complete_tasks_go, hval, hemp, Bool.not_true, Bool.not_false,
    Bool.false_eq_true, if_false, ite_false, ite_true, if_true,
    ctLoop_okTrue_eq, List.nil_append, Nat.zero_add] at hrun
  have hbv := condBoardF_eq (taskCond T) "complete" s0.cardId s0.taskItems s0
    rfl
  have hfcard : (condBoardF (taskCond T) "complete" s0.cardId s0.taskItems
      s0).cardId = s0.cardId := by rw [hbv]
  have hfart : (condBoardF (taskCond T) "complete" s0.cardId s0.taskItems
      s0).artist_card_id = s0.artist_card_id := by rw [hbv]
  have hfcid : (condBoardF (taskCond T) "complete" s0.cardId s0.taskItems
      s0).checkitem_id = s0.checkitem_id := by rw [hbv]
  have hfidl : (condBoardF (taskCond T) "complete" s0.cardId s0.taskItems
      s0).idList = s0.idList := by rw [hbv]
  have hfcs : (condBoardF (taskCond T) "complete" s0.cardId s0.taskItems
      s0).checkitem_state = s0.checkitem_state := by rw [hbv]
  have hitems : (condBoardF (taskCond T) "complete" s0.cardId s0.taskItems
      s0).taskItems = s0.taskItems.map (fun x =>
      if s0.taskItems.any (fun ci => taskCond T ci && ci.id == x.id) then
        ⟨x.id, x.name, "complete"⟩
      else x) := by rw [hbv]
  have hlem := ctAggregate_okTrue_eq mgr s0
    (ctAccF T s0.taskItems (album_tasks.map (fun t => (t, false))))
    (condBoardF (taskCond T) "complete" s0.cardId s0.taskItems s0)
    (condReqsF (taskCond T) "complete" s0.cardId s0.taskItems)
    (s0.taskItems.countP (taskCond T))
    hfcard hfart hfcid hfidl hfcs han
  cases hall : dictAll (ctAccF T s0.taskItems
      (album_tasks.map (fun t => (t, false)))) with
  | true =>
    obtain ⟨tr2, hagg⟩ := hlem.1 hall
    rw [hagg] at hrun
    simp only [Prod.mk.injEq, Option.some.injEq, CTReport.mk.injEq] at hrun
    obtain ⟨_, hs1, _⟩ := hrun
    refine ⟨rfl, rfl, rfl, hne, ?_, ?_, ?_, ?_⟩
    · rw [← hs1]; exact hfcard
    · rw [← hs1]; exact hfart
    · rw [← hs1]; exact hfcid
    · rw [← hs1]; exact hitems
  | false =>
    cases hany : dictAny (ctAccF T s0.taskItems
        (album_tasks.map (fun t => (t, false)))) with
    | true =>
      obtain ⟨tr2, hagg⟩ := hlem.2.1 hall hany
      rw [hagg] at hrun
      simp only [Prod.mk.injEq, Option.some.injEq, CTReport.mk.injEq] at hrun
      obtain ⟨_, hs1, _⟩ := hrun
      refine ⟨rfl, rfl, rfl, hne, ?_, ?_, ?_, ?_⟩
      · rw [← hs1]; exact hfcard
      · rw [← hs1]; exact hfart
      · rw [← hs1]; exact hfcid
      · rw [← hs1]; exact hitems
    | false =>
      have hagg := hlem.2.2 hall hany
      rw [hagg] at hrun
      simp only [Prod.mk.injEq, Option.some.injEq, CTReport.mk.injEq] at hrun
      obtain ⟨_, hs1, _⟩ := hrun
      refine ⟨rfl, rfl, rfl, hne, ?_, ?_, ?_, ?_⟩
      · rw [← hs1]; exact hfcard
      · rw [← hs1]; exact hfart
      · rw [← hs1]; exact hfcid
      · rw [← hs1]; exact hitems

/-- Helper: a second `complete_tasks_go` run with the same request
after a fully successful first run issues no task-state update. -/
theorem complete_tasks_go_second_no_task_updates (mgr : Mgr)
    (found tcFound : Bool) (s0 : AlbumState) (T : List String)
    (rep : CTReport) (s1 : AlbumState) (tr1 : List Req) (ok2 : Nat → Bool)
    (han : s0.artist_card_id ≠ s0.cardId)
    (hnd : (s0.taskItems.map Checkitem.id).Nodup)
    (hrun : complete_tasks_go okTrue mgr found tcFound s0 T =
      (some rep, s1, tr1)) :
    ((complete_tasks_go ok2 mgr found tcFound s1 T).2.2).filter
      (isTaskUpdate s1.cardId) = [] := by
  obtain ⟨hfound, htcf, hval, hne, hcard, hart, hcid, htask⟩ :=
    complete_tasks_go_okTrue_fields mgr found tcFound s0 T rep s1 tr1 han
      hrun
  subst hfound
  subst htcf
  have hnone : ∀ ci2 ∈ s1.taskItems, taskCond T ci2 = false := by
    intro ci2 hci2
    rw [htask] at hci2
    rcases List.mem_map.mp hci2 with ⟨x, hx, hx2⟩
    rw [any_cond_id_eq (taskCond T) s0.taskItems hnd x hx] at hx2
    cases hcx : taskCond T x with
    | true =>
      rw [hcx] at hx2
      simp only [ite_true, if_true] at hx2
      rw [← hx2]
      unfold taskCond
      simp
    | false =>
      rw [hcx] at hx2
      simp only [Bool.false_eq_true, if_false, ite_false] at hx2
      rw [← hx2]
      exact hcx
  have hemp1 : ¬(s1.taskItems.isEmpty = true) := by
    rw [htask]
    cases hq : s0.taskItems with
    | nil => exact absurd hq hne
    | cons x l => simp
  obtain ⟨acc2, hloop2⟩ := ctLoop_no_cond ok2 s1.cardId T s1.taskItems
    (album_tasks.map (fun t => (t, false))) s1 [] 0 hnone
  unfold complete_tasks_go
  rw [if_neg (by rw [hval]; exact Bool.false_ne_true), if_neg (by simp),
    if_neg (by simp), if_neg hemp1, hloop2]
  show ((ctAggregate ok2 mgr s1 acc2 s1 [] 0).2.2).filter
    (isTaskUpdate s1.cardId) = []
  rw [List.filter_eq_nil_iff]
  intro r hr
  rcases ctAggregate_trace_mem ok2 mgr s1 acc2 s1 [] 0 r hr with
    h | ⟨l, hl⟩ | ⟨stv, hst⟩
  · cases h
  · rw [hl]
    simp [isTaskUpdate]
  · rw [hst]
    simp only [isTaskUpdate]
    rw [hart, hcard]
    simp [han]

/-- C3: `complete_tasks` never issues an update marking a task
checkitem of the album card incomplete (every task-state update it
issues carries state complete), it issues no update at all for a task
checkitem that is already complete, and after a fully successful run a
second call with the same request issues zero task-state update
requests. -/
theorem complete_tasks_monotone :
    (∀ (ok : Nat → Bool) (mgr : Mgr) (found tcFound : Bool)
        (s0 : AlbumState) (tasks : List String) (r : Req),
      s0.artist_card_id ≠ s0.cardId →
      r ∈ (complete_tasks ok mgr found tcFound s0 tasks).2.2 →
      isTaskUpdate s0.cardId r = true →
      ∃ ciId, r = Req.updateCheckitem s0.cardId ciId none (some "complete")) ∧
    (∀ (ok : Nat → Bool) (mgr : Mgr) (found tcFound : Bool)
        (s0 : AlbumState) (tasks : List String) (ci : Checkitem)
        (nm st : Option String),
      s0.artist_card_id ≠ s0.cardId →
      (s0.taskItems.map Checkitem.id).Nodup →
      ci ∈ s0.taskItems → ci.state = "complete" →
      Req.updateCheckitem s0.cardId ci.id nm st ∉
        (complete_tasks ok mgr found tcFound s0 tasks).2.2) ∧
    (∀ (mgr : Mgr) (found tcFound : Bool) (s0 : AlbumState)
        (tasks : List String) (rep : CTReport) (s1 : AlbumState)
        (tr1 : List Req) (ok2 : Nat → Bool),
      s0.artist_card_id ≠ s0.cardId →
      (s0.taskItems.map Checkitem.id).Nodup →
      complete_tasks okTrue mgr found tcFound s0 tasks =
        (some rep, s1, tr1) →
      ((complete_tasks ok2 mgr found tcFound s1 tasks).2.2).filter
        (isTaskUpdate s1.cardId) = []) := by
  refine ⟨?_, ?_, ?_⟩
  · intro ok mgr found tcFound s0 tasks r han hr htu
    rcases complete_tasks_trace_shape ok mgr found tcFound s0 tasks r hr with
      ⟨ci, _, _, hform⟩ | ⟨l, hform⟩ | ⟨stv, hform⟩
    · exact ⟨ci.id, hform⟩
    · rw [hform] at htu
      simp [isTaskUpdate] at htu
    · rw [hform] at htu
      have : s0.artist_card_id = s0.cardId := by
        simpa [isTaskUpdate] using htu
      exact absurd this han
  · intro ok mgr found tcFound s0 tasks ci nm st han hnd hci hstate hmem
    rcases complete_tasks_trace_shape ok mgr found tcFound s0 tasks _ hmem
      with ⟨ci2, hci2, hst2, hform⟩ | ⟨l, hform⟩ | ⟨stv, hform⟩
    · injection hform with h1 h2 h3 h4
      have hcieq : ci = ci2 :=
        List.inj_on_of_nodup_map hnd hci hci2 h2
      rw [← hcieq, hstate] at hst2
      simp at hst2
    · exact Req.noConfusion hform
    · injection hform with h1 h2 h3 h4
      exact absurd h1.symm han
  · intro mgr found tcFound s0 tasks rep s1 tr1 ok2 han hnd hrun
    cases he : tasks.isEmpty with
    | true =>
      rw [complete_tasks, if_pos he] at hrun
      rw [complete_tasks, if_pos he]
      exact complete_tasks_go_second_no_task_updates mgr found tcFound s0
        album_tasks rep s1 tr1 ok2 han hnd hrun
    | false =>
      rw [complete_tasks, if_neg (by rw [he]; exact Bool.false_ne_true)]
        at hrun
      rw [complete_tasks, if_neg (by rw [he]; exact Bool.false_ne_true)]
      exact complete_tasks_go_second_no_task_updates mgr found tcFound s0
        tasks rep s1 tr1 ok2 han hnd hrun

/-- Witness for C3: a concrete run never touches the already-complete
"Listen" checkitem. -/
theorem complete_tasks_monotone_witness :
    Req.updateCheckitem "c" "t4" none (some "complete") ∉
      (complete_tasks okTrue ⟨"P", "D", "F"⟩ true true
        ⟨"c", "P",
         [⟨"t1", "Download", "incomplete"⟩,
          ⟨"t2", "Add metadata", "incomplete"⟩,
          ⟨"t3", "Transfer to phone", "incomplete"⟩,
          ⟨"t4", "Listen", "complete"⟩],
         "a", "x", "incomplete"⟩ ["Listen"]).2.2 :=
  complete_tasks_monotone.2.1 okTrue ⟨"P", "D", "F"⟩ true true
    ⟨"c", "P",
     [⟨"t1", "Download", "incomplete"⟩, ⟨"t2", "Add metadata", "incomplete"⟩,
      ⟨"t3", "Transfer to phone", "incomplete"⟩,
      ⟨"t4", "Listen", "complete"⟩],
     "a", "x", "incomplete"⟩ ["Listen"] ⟨"t4", "Listen", "complete"⟩
    none (some "complete") (by decide) (by decide) (by decide) rfl

/-- C4: a requested task name outside the four fixed names rejects the
whole `complete_tasks` command before any remote mutation — the result
is absent, the board state is unchanged and the request trace is empty;
an empty requested task list is treated as requesting all four fixed
tasks. -/
theorem complete_tasks_validation :
    (∀ (ok : Nat → Bool) (mgr : Mgr) (found tcFound : Bool) (s0 : AlbumState)
        (tasks : List String) (t : String),
      t ∈ tasks → album_tasks.contains t = false →
      complete_tasks ok mgr found tcFound s0 tasks = (none, s0, [])) ∧
    (∀ (ok : Nat → Bool) (mgr : Mgr) (found tcFound : Bool) (s0 : AlbumState),
      complete_tasks ok mgr found tcFound s0 [] =
        complete_tasks ok mgr found tcFound s0 album_tasks) := by
  constructor
  · intro ok mgr found tcFound s0 tasks t ht hcont
    have hne : tasks.isEmpty = false := by
      cases tasks with
      | nil => cases ht
      | cons a l => rfl
    have hmem : t ∉ album_tasks := by simpa using hcont
    have hany : tasks.any (fun t => !(album_tasks.contains t)) = true :=
      List.any_eq_true.mpr ⟨t, ht, by simpa using hmem⟩
    simp [complete_tasks, hne, complete_tasks_go, hany]
    intro hall
    exact absurd (hall t ht) hmem
  · intro ok mgr found tcFound s0
    simp [complete_tasks, album_tasks]

/-- Witness for C4 at a concrete invalid task name. -/
theorem complete_tasks_validation_witness :
    complete_tasks okTrue ⟨"P", "D", "F"⟩ true true
      ⟨"c", "P", [⟨"t1", "Download", "incomplete"⟩], "a", "x", "incomplete"⟩
      ["Bogus"] =
      (none,
       ⟨"c", "P", [⟨"t1", "Download", "incomplete"⟩], "a", "x", "incomplete"⟩,
       []) :=
  complete_tasks_validation.1 okTrue ⟨"P", "D", "F"⟩ true true
    ⟨"c", "P", [⟨"t1", "Download", "incomplete"⟩], "a", "x", "incomplete"⟩
    ["Bogus"] "Bogus" (by decide) (by decide)

end Trello
